import Mathlib

/-!
# FAT16Reader: a shallow embedding of `file_reader.c`

Buffers are lists of bytes, C integers are `Nat`/`Int` values that are wrapped
explicitly wherever the C type is narrower than the mathematical result
(two's-complement wrap-around for signed 32-bit arithmetic, as the usual
compilers produce it).  The global `errno` is threaded through every call.
An access outside a buffer, a division by zero and a loop that does not
finish within the given fuel are reported as `none`.
-/

namespace FAT16

/-- One byte of memory (`uint8_t`). -/
abbrev Byte := Fin 256

/-! ## Machine integers -/

/-- Conversion to `uint16_t`. -/
def toU16 (x : Int) : Int := x % 65536

/-- Conversion to `uint32_t`. -/
def toU32 (x : Int) : Int := x % 4294967296

/-- Conversion to `int32_t` (two's complement). -/
def toI32 (x : Int) : Int := (x + 2147483648) % 4294967296 - 2147483648

/-! ## Constants of `errno.h` and `stdio.h` (Linux values) -/

def ENOENT : Int := 2
def ENXIO : Int := 6
def ENOMEM : Int := 12
def EFAULT : Int := 14
def EISDIR : Int := 21
def EINVAL : Int := 22
def ERANGE : Int := 34

def SEEK_SET : Int := 0
def SEEK_CUR : Int := 1
def SEEK_END : Int := 2

/-! ## Constants of `file_reader.c` -/

def ENTRY_SIZE : Nat := 32
def FILENAME_MAX_LENGTH : Nat := 12
def FAT_CHAIN_ENDING_VALUE : Nat := 0xFFF8
def ATTR_READONLY : Nat := 0x01
def ATTR_HIDDEN : Nat := 0x02
def ATTR_SYSTEM : Nat := 0x04
def ATTR_VOLUME_LABEL : Nat := 0x08
def ATTR_DIRECTORY : Nat := 0x10
def ATTR_ARCHIVE : Nat := 0x20

/-! ## Little-endian decoding of packed records -/

/-- The byte at offset `off` as a number. -/
def rd8 (buf : List Byte) (off : Nat) : Nat := (buf.getD off 0).val

/-- The `uint16_t` stored little-endian at offset `off`. -/
def rd16 (buf : List Byte) (off : Nat) : Nat := rd8 buf off + 256 * rd8 buf (off + 1)

/-- The `uint32_t` stored little-endian at offset `off`. -/
def rd32 (buf : List Byte) (off : Nat) : Nat :=
  rd8 buf off + 256 * rd8 buf (off + 1) + 65536 * rd8 buf (off + 2)
    + 16777216 * rd8 buf (off + 3)

/-- A packed 32-byte `struct SFN`, kept as its bytes. -/
structure SFN where
  bytes : List Byte
deriving DecidableEq, Repr

/-- Byte `j` of `filename[8]` (offset 0). -/
def SFN.filename (s : SFN) (j : Nat) : Byte := s.bytes.getD j 0

/-- Byte `k` of `ext[3]` (offset 8). -/
def SFN.ext (s : SFN) (k : Nat) : Byte := s.bytes.getD (8 + k) 0

/-- Field `file_attributes` (offset 11). -/
def SFN.file_attributes (s : SFN) : Nat := rd8 s.bytes 11

/-- Field `low_order_address_of_first_cluster` (offset 26). -/
def SFN.low_order_address_of_first_cluster (s : SFN) : Nat := rd16 s.bytes 26

/-- Field `size` (offset 28). -/
def SFN.size (s : SFN) : Nat := rd32 s.bytes 28

/-- The record `struct file_t`: the SFN copy, the reconstructed bytes and the
`int32_t` cursor. -/
structure file_t where
  handle : SFN
  data : List Byte
  current_byte : Int
deriving DecidableEq, Repr

/-! ## `file_seek` -/

/-- The function `file_seek` for a non-null stream.  The result is the return
value, the stream afterwards and `errno` afterwards. -/
def file_seek (stream : file_t) (offset : Int) (whence : Int) (errno : Int) :
    Int × file_t × Int :=
  if (whence = SEEK_SET ∧ offset < 0) ∨ (whence = SEEK_END ∧ offset > 0)
      ∨ (whence ≠ SEEK_SET ∧ whence ≠ SEEK_CUR ∧ whence ≠ SEEK_END) then
    (-1, stream, EINVAL)
  else if whence = SEEK_SET then
    if toU32 offset > stream.handle.size then (-1, stream, ENXIO)
    else (offset, file_t.mk stream.handle stream.data offset, errno)
  else if whence = SEEK_CUR then
    if toI32 (offset + stream.current_byte) < 0
        ∨ toU32 (toI32 (offset + stream.current_byte)) > stream.handle.size then
      (-1, stream, ENXIO)
    else
      (toI32 (stream.current_byte + offset),
        file_t.mk stream.handle stream.data (toI32 (stream.current_byte + offset)), errno)
  else
    if toU32 (toI32 (-offset)) > stream.handle.size then (-1, stream, ENXIO)
    else
      (toI32 (toU32 (stream.handle.size + toU32 offset)),
        file_t.mk stream.handle stream.data
          (toI32 (toU32 (stream.handle.size + toU32 offset))), errno)

/-! ## `file_read` -/

/-- The bytes `[off, off + n)` of a buffer, as `memcpy` reads them; `none` when
the range is not inside the buffer. -/
def read_bytes (buf : List Byte) (off : Int) (n : Nat) : Option (List Byte) :=
  if 0 ≤ off ∧ off + n ≤ buf.length then some ((buf.drop off.toNat).take n) else none

/-- The function `file_read` for non-null arguments.  The result is the return
value, the bytes stored through `ptr`, the stream afterwards and `errno`
afterwards. -/
def file_read (stream : file_t) (size nmemb : Nat) (errno : Int) :
    Option (Nat × List Byte × file_t × Int) :=
  let bytes_left_to_read : Int := toU16 (toU32 (stream.handle.size - toU32 stream.current_byte))
  if bytes_left_to_read = 0 then some (0, [], stream, errno)
  else
    let bytes_to_read : Int := toU16 (size * nmemb)
    if bytes_to_read ≤ bytes_left_to_read then
      match read_bytes stream.data stream.current_byte bytes_to_read.toNat with
      | none => none
      | some out =>
        let r := file_seek stream bytes_to_read SEEK_CUR errno
        some (nmemb, out, r.2.1, r.2.2)
    else
      match read_bytes stream.data stream.current_byte bytes_left_to_read.toNat with
      | none => none
      | some out =>
        let r := file_seek stream bytes_left_to_read SEEK_CUR errno
        if size = 0 then none else some (bytes_left_to_read.toNat / size, out, r.2.1, r.2.2)

/-- Repeated `file_read(ptr, 1, 1, stream)` until a call returns 0: the bytes
delivered, in order, and the stream at the end. -/
def read_all : Nat → file_t → Int → Option (List Byte × file_t)
  | 0, _, _ => none
  | fuel + 1, stream, errno =>
    match file_read stream 1 1 errno with
    | none => none
    | some (r, out, stream1, errno1) =>
      if r = 0 then some ([], stream1)
      else (read_all fuel stream1 errno1).map (fun p => (out ++ p.1, p.2))

/-- The contents of a block returned by `malloc(n)`: `n` bytes of indeterminate
value, given by `junk`. -/
def malloc (junk : Nat → Byte) (n : Nat) : List Byte := (List.range n).map junk

/-! ## Reference definitions for `file_read` and `file_seek`, written from the specification -/

/-- The fread-style reference for `file_read`: return value, bytes copied and
the cursor afterwards, with `remaining` and `requested` not truncated. -/
def file_read_ref (stream : file_t) (element_size n_elements : Nat) :
    Nat × List Byte × Int :=
  let remaining : Nat := stream.handle.size - stream.current_byte.toNat
  let requested : Nat := element_size * n_elements
  if remaining = 0 then (0, [], stream.current_byte)
  else if requested ≤ remaining then
    (n_elements, (stream.data.drop stream.current_byte.toNat).take requested,
      stream.current_byte + requested)
  else
    (remaining / element_size, (stream.data.drop stream.current_byte.toNat).take remaining,
      stream.handle.size)

/-- The reference for `file_seek`: return value, cursor afterwards and `errno`
afterwards. -/
def file_seek_ref (stream : file_t) (offset : Int) (whence : Int) (errno : Int) :
    Int × Int × Int :=
  if (whence ≠ SEEK_SET ∧ whence ≠ SEEK_CUR ∧ whence ≠ SEEK_END)
      ∨ (whence = SEEK_SET ∧ offset < 0) ∨ (whence = SEEK_END ∧ offset > 0) then
    (-1, stream.current_byte, EINVAL)
  else
    let target : Int :=
      if whence = SEEK_SET then offset
      else if whence = SEEK_CUR then stream.current_byte + offset
      else stream.handle.size + offset
    if target < 0 ∨ target > stream.handle.size then (-1, stream.current_byte, ENXIO)
    else (target, target, errno)

/-- The stream states reachable from `s0` by `file_read` and `file_seek` calls
with arbitrary arguments (a 32-bit `offset`). -/
inductive Reachable (s0 : file_t) : file_t → Prop
  | init : Reachable s0 s0
  | read (s : file_t) (size nmemb : Nat) (errno : Int) (r : Nat × List Byte × file_t × Int) :
      Reachable s0 s → file_read s size nmemb errno = some r → Reachable s0 r.2.2.1
  | seek (s : file_t) (offset whence errno : Int) :
      Reachable s0 s → -2147483648 ≤ offset → offset < 2147483648 →
      Reachable s0 (file_seek s offset whence errno).2.1

/-! ## The volume -/

/-- The packed 512-byte `struct boot_sector_t`, kept as its bytes. -/
structure boot_sector_t where
  bytes : List Byte
deriving DecidableEq, Repr

/-- Field `bytes_per_sector` (offset 11, `uint16_t`). -/
def boot_sector_t.bytes_per_sector (b : boot_sector_t) : Nat := rd16 b.bytes 11

/-- Field `sectors_per_cluster` (offset 13, `uint8_t`). -/
def boot_sector_t.sectors_per_cluster (b : boot_sector_t) : Nat := rd8 b.bytes 13

/-- Field `reserved_sectors` (offset 14, `uint16_t`). -/
def boot_sector_t.reserved_sectors (b : boot_sector_t) : Nat := rd16 b.bytes 14

/-- Field `root_dir_capacity` (offset 17, `uint16_t`). -/
def boot_sector_t.root_dir_capacity (b : boot_sector_t) : Nat := rd16 b.bytes 17

/-- Field `small_number_of_sectors` (offset 19, `uint16_t`). -/
def boot_sector_t.small_number_of_sectors (b : boot_sector_t) : Nat := rd16 b.bytes 19

/-- Field `sectors_per_fat` (offset 22, `uint16_t`). -/
def boot_sector_t.sectors_per_fat (b : boot_sector_t) : Nat := rd16 b.bytes 22

/-- Field `large_number_of_sectors` (offset 32, `uint32_t`). -/
def boot_sector_t.large_number_of_sectors (b : boot_sector_t) : Nat := rd32 b.bytes 32

/-- Field `signature` (offset 510, `uint16_t`). -/
def boot_sector_t.signature (b : boot_sector_t) : Nat := rd16 b.bytes 510

/-- The record `struct volume_t`: the boot sector and the four buffers. -/
structure volume_t where
  boot_sector : boot_sector_t
  primary_fat : List Byte
  secondary_fat : List Byte
  root_directory : List Byte
  data_area : List Byte
deriving DecidableEq, Repr

/-- The size of a cluster in bytes, `sectors_per_cluster * bytes_per_sector`
(an `int` product of a `uint8_t` and a `uint16_t`, which cannot overflow). -/
def volume_t.cluster_bytes (v : volume_t) : Nat :=
  v.boot_sector.sectors_per_cluster * v.boot_sector.bytes_per_sector

/-- The record `((struct SFN *) table) + i`: slot `i` of a directory table. -/
def sfn_at (table : List Byte) (i : Nat) : SFN :=
  SFN.mk ((table.drop (ENTRY_SIZE * i)).take ENTRY_SIZE)

/-! ## 8.3 names -/

/-- The first loop over `filename[8]`, with `n` iterations left: it stops at the
first space, otherwise stores the byte at index `j`.  The result is the final
`j` and the buffer. -/
def filename_loop (e : SFN) : Nat → Nat → List Byte → Nat × List Byte
  | 0, j, buf => (j, buf)
  | n + 1, j, buf =>
    if e.filename j = 0x20 then (j, buf)
    else filename_loop e n (j + 1) (buf.set j (e.filename j))

/-- The second loop over `ext[3]`, with `n` iterations left: it stops at the
first space; at `k = 0` it stores a dot and increments `j`; it stores the
extension byte at index `j + k`. -/
def ext_loop (e : SFN) : Nat → Nat → Nat → List Byte → List Byte
  | 0, _, _, buf => buf
  | n + 1, k, j, buf =>
    if e.ext k = 0x20 then buf
    else
      let buf1 := if k = 0 then buf.set j 0x2E else buf
      let j1 := if k = 0 then j + 1 else j
      ext_loop e n (k + 1) j1 (buf1.set (j1 + k) (e.ext k))

/-- The 13-byte buffer `filename` / `current_filename` that `dir_read` and
`file_open` build for a slot, starting from all zeros. -/
def sfn_name (e : SFN) : List Byte :=
  let r := filename_loop e 8 0 (List.replicate (FILENAME_MAX_LENGTH + 1) 0)
  ext_loop e 3 0 r.1 r.2

/-- The function `strcmp` on two byte buffers read as C strings: a list ends
with an implicit NUL if it holds none. -/
def strcmp : List Byte → List Byte → Int
  | [], [] => 0
  | [], b :: _ => 0 - (b.val : Int)
  | a :: _, [] => (a.val : Int)
  | a :: as, b :: bs =>
    if a ≠ b then (a.val : Int) - (b.val : Int)
    else if a = 0 then 0
    else strcmp as bs

/-! ## Directory iteration -/

/-- The record `struct dir_t`: the table `dir` points to and the two `uint16_t`
counters (`current_entry` never exceeds `number_of_entries`, so its increments
do not wrap). -/
structure dir_t where
  dir : List Byte
  number_of_entries : Nat
  current_entry : Nat
deriving DecidableEq, Repr

/-- The record `struct dir_entry_t`. -/
structure dir_entry_t where
  name : List Byte
  size : Nat
  is_archived : Nat
  is_readonly : Nat
  is_system : Nat
  is_hidden : Nat
  is_directory : Nat
deriving DecidableEq, Repr

/-- The value of `(attributes & mask) ? 1 : 0`. -/
def attr_flag (attributes mask : Nat) : Nat := if attributes &&& mask ≠ 0 then 1 else 0

/-- The entry `dir_read` stores through `pentry` for a slot. -/
def make_entry (e : SFN) : dir_entry_t :=
  dir_entry_t.mk (sfn_name e) e.size
    (attr_flag e.file_attributes ATTR_ARCHIVE)
    (attr_flag e.file_attributes ATTR_READONLY)
    (attr_flag e.file_attributes ATTR_SYSTEM)
    (attr_flag e.file_attributes ATTR_HIDDEN)
    (attr_flag e.file_attributes ATTR_DIRECTORY)

/-- The function `dir_open` for non-null arguments: the cursor (or null) and
`errno` afterwards. -/
def dir_open (pvolume : volume_t) (dir_path : List Byte) (errno : Int) : Option dir_t × Int :=
  if strcmp dir_path [0x5C] = 0 then
    (some (dir_t.mk pvolume.root_directory pvolume.boot_sector.root_dir_capacity 0), errno)
  else (none, ENOENT)

/-- The scanning loop of `dir_read`, with `m = number_of_entries - current_entry`
slots left: the return value, the entry stored (if any) and the cursor
afterwards. -/
def dir_scan (table : List Byte) : Nat → Nat → Int × Option dir_entry_t × Nat
  | 0, cur => (1, none, cur)
  | m + 1, cur =>
    let current_entry := sfn_at table cur
    if current_entry.filename 0 = 0x00 ∨ current_entry.filename 0 = 0xe5 then
      dir_scan table m (cur + 1)
    else if current_entry.file_attributes &&& ATTR_VOLUME_LABEL ≠ 0 then
      dir_scan table m (cur + 1)
    else (0, some (make_entry current_entry), cur + 1)

/-- The function `dir_read` for non-null arguments: the return value, the entry
stored through `pentry` (if any), the cursor afterwards and `errno`
afterwards. -/
def dir_read (pdir : dir_t) (errno : Int) : Int × Option dir_entry_t × dir_t × Int :=
  if pdir.current_entry = pdir.number_of_entries then (-1, none, pdir, ENXIO)
  else
    let r := dir_scan pdir.dir (pdir.number_of_entries - pdir.current_entry) pdir.current_entry
    (r.1, r.2.1, dir_t.mk pdir.dir pdir.number_of_entries r.2.2, errno)

/-- Calling `dir_read` until it returns a non-zero value: the entries emitted,
each with the cursor position after its call, and the last return value.
The result is `none` when the fuel runs out first. -/
def dir_iterate : Nat → dir_t → Int → Option (List (dir_entry_t × Nat) × Int)
  | 0, _, _ => none
  | fuel + 1, pdir, errno =>
    match dir_read pdir errno with
    | (ret, pentry, pdir1, errno1) =>
      if ret = 0 then
        match pentry with
        | none => none
        | some e =>
          (dir_iterate fuel pdir1 errno1).map
            (fun r => ((e, pdir1.current_entry) :: r.1, r.2))
      else some ([], ret)

/-! ## `file_open` -/

/-- The FAT entry `*((uint16_t *) primary_fat + index)`; `none` when it lies
outside the FAT buffer. -/
def fat_entry (fat : List Byte) (index : Nat) : Option Nat :=
  if 2 * index + 2 ≤ fat.length then some (rd16 fat (2 * index)) else none

/-- The call `memcpy(dst + d, src + s, n)`: the destination buffer afterwards;
`none` when either range is not inside its buffer. -/
def memcpy (dst : List Byte) (d : Int) (src : List Byte) (s : Int) (n : Nat) :
    Option (List Byte) :=
  if 0 ≤ d ∧ d + n ≤ dst.length ∧ 0 ≤ s ∧ s + n ≤ src.length then
    some (dst.take d.toNat ++ (src.drop s.toNat).take n ++ dst.drop (d.toNat + n))
  else none

/-- The `int` offset `k * (sectors_per_cluster * bytes_per_sector)` into the
file buffer. -/
def dst_offset (v : volume_t) (k : Nat) : Int := toI32 ((k : Int) * (v.cluster_bytes : Int))

/-- The `int` offset `(index - 2) * sectors_per_cluster * bytes_per_sector` into
the data area. -/
def src_offset (v : volume_t) (index : Nat) : Int :=
  toI32 (toI32 (((index : Int) - 2) * (v.boot_sector.sectors_per_cluster : Int))
    * (v.boot_sector.bytes_per_sector : Int))

/-- One evaluation of the condition and body of the cluster loop of
`file_open`: when the FAT entry of `index` is below 0xFFF8, copy the whole
cluster `index` to position `k` and follow the entry (`true`: the loop goes
on with the new `index`, `k + 1` and the buffer); otherwise the loop ends
(`false`, with `index`, `k` and the buffer unchanged).  The result is `none`
on an access outside a buffer. -/
def chain_step (v : volume_t) (index k : Nat) (data : List Byte) :
    Option (Bool × Nat × Nat × List Byte) :=
  match fat_entry v.primary_fat index with
  | none => none
  | some next =>
    if next < FAT_CHAIN_ENDING_VALUE then
      match memcpy data (dst_offset v k) v.data_area (src_offset v index) v.cluster_bytes with
      | none => none
      | some data1 => some (true, next, k + 1, data1)
    else some (false, index, k, data)

/-- The cluster loop of `file_open`: the final `index`, the final `k` and the
buffer; `none` on an access outside a buffer or when the fuel runs out (`k`
counts iterations and stays far below the `int` range). -/
def chain_loop (v : volume_t) : Nat → Nat → Nat → List Byte → Option (Nat × Nat × List Byte)
  | 0, _, _, _ => none
  | fuel + 1, index, k, data =>
    match chain_step v index k data with
    | none => none
    | some (true, next, k1, data1) => chain_loop v fuel next k1 data1
    | some (false, r) => some r

/-- The body of `file_open` after a regular file has matched (allocation
succeeds; `junk` is the indeterminate content of the fresh data buffer): the
stream built for the slot `pfile`.  The result is `none` on a division by
zero, an access outside a buffer or when the fuel runs out. -/
def reconstruct (v : volume_t) (pfile : SFN) (junk : Nat → Byte) (fuel : Nat) : Option file_t :=
  if v.cluster_bytes = 0 then none
  else
    let bytes_left_to_read : Nat := pfile.size % v.cluster_bytes % 65536
    let index : Nat := pfile.low_order_address_of_first_cluster
    match chain_loop v fuel index 0 (malloc junk pfile.size) with
    | none => none
    | some (index1, k, data) =>
      if bytes_left_to_read > 0 then
        match memcpy data (dst_offset v k) v.data_area (src_offset v index1)
            bytes_left_to_read with
        | none => none
        | some data1 => some (file_t.mk pfile data1 0)
      else some (file_t.mk pfile data 0)

/-- The directory loop of `file_open`, with `m = root_dir_capacity - i` slots
left: the stream (or null) and `errno` afterwards. -/
def file_open_scan (v : volume_t) (file_name : List Byte) (junk : Nat → Byte) (fuel : Nat)
    (errno : Int) : Nat → Nat → Option (Option file_t × Int)
  | 0, _ => some (none, errno)
  | m + 1, i =>
    let pfile := sfn_at v.root_directory i
    if pfile.filename 0 = 0x00 ∨ pfile.filename 0 = 0xe5 then
      file_open_scan v file_name junk fuel errno m (i + 1)
    else if strcmp file_name (sfn_name pfile) = 0 then
      if pfile.file_attributes &&& ATTR_DIRECTORY ≠ 0
          ∨ pfile.file_attributes &&& ATTR_VOLUME_LABEL ≠ 0 then
        some (none, EISDIR)
      else (reconstruct v pfile junk fuel).map (fun f => (some f, errno))
    else file_open_scan v file_name junk fuel errno m (i + 1)

/-- The function `file_open` for non-null arguments, with allocation
succeeding. -/
def file_open (pvolume : volume_t) (file_name : List Byte) (junk : Nat → Byte) (fuel : Nat)
    (errno : Int) : Option (Option file_t × Int) :=
  file_open_scan pvolume file_name junk fuel errno pvolume.boot_sector.root_dir_capacity 0

/-! ## Definitions written from the specification: names, matching, chains -/

/-- A slot is visible when its first byte is neither 0x00 nor 0xE5 and its
attributes lack VOLUME_LABEL. -/
def visible (table : List Byte) (i : Nat) : Bool :=
  decide ((sfn_at table i).filename 0 ≠ 0x00) && decide ((sfn_at table i).filename 0 ≠ 0xe5)
    && decide ((sfn_at table i).file_attributes &&& ATTR_VOLUME_LABEL = 0)

/-- The C string held in a buffer: the bytes before the first NUL. -/
def cstr (l : List Byte) : List Byte := l.takeWhile (fun b => b ≠ 0)

/-- Slot `i` of the root directory matches `name` for `file_open`: its first
byte is neither 0x00 nor 0xE5 and its normalised 8.3 name equals `name`, both
read as C strings. -/
def name_matches (v : volume_t) (name : List Byte) (i : Nat) : Bool :=
  decide ((sfn_at v.root_directory i).filename 0 ≠ 0x00)
    && decide ((sfn_at v.root_directory i).filename 0 ≠ 0xe5)
    && decide (cstr name = cstr (sfn_name (sfn_at v.root_directory i)))

/-- The first slot, in slot order, that matches `name`. -/
def first_match (v : volume_t) (name : List Byte) : Option Nat :=
  (List.range v.boot_sector.root_dir_capacity).find? (name_matches v name)

/-- The slot has the DIRECTORY or the VOLUME_LABEL attribute. -/
def is_dir_or_label (e : SFN) : Bool :=
  decide (e.file_attributes &&& ATTR_DIRECTORY ≠ 0)
    || decide (e.file_attributes &&& ATTR_VOLUME_LABEL ≠ 0)

/-- The bytes of cluster `c`: `cluster_bytes` bytes of the data area from byte
offset `(c - 2) * cluster_bytes`. -/
def cluster (v : volume_t) (c : Nat) : List Byte :=
  (v.data_area.drop ((c - 2) * v.cluster_bytes)).take v.cluster_bytes

/-- The clusters `cs` followed by `cn` are the chain that starts at `c`: each
cluster of `cs` has a FAT entry below 0xFFF8 that names the next one, and the
FAT entry of `cn` is an end-of-chain value (at least 0xFFF8). -/
def is_chain (fat : List Byte) : Nat → List Nat → Nat → Bool
  | c, [], cn =>
    decide (c = cn) &&
      (match fat_entry fat c with
       | some x => decide (FAT_CHAIN_ENDING_VALUE ≤ x)
       | none => false)
  | c, x :: xs, cn =>
    decide (x = c) &&
      (match fat_entry fat c with
       | some next => decide (next < FAT_CHAIN_ENDING_VALUE) && is_chain fat next xs cn
       | none => false)

/-! ## Example volumes, directories and streams -/

/-- The 32 bytes of a slot: the 11 name bytes, the attributes, the low word of
the first cluster and the four size bytes (little-endian); the rest is zero. -/
def slot_bytes (name : List Byte) (attr c0 c1 s0 s1 s2 s3 : Byte) : List Byte :=
  name ++ [attr] ++ List.replicate 14 0 ++ [c0, c1, s0, s1, s2, s3]

/-- A regular file named A, first cluster 2, 3 bytes. -/
def slot_file_A : List Byte :=
  slot_bytes [0x41, 0x20, 0x20, 0x20, 0x20, 0x20, 0x20, 0x20, 0x20, 0x20, 0x20] 0x20 2 0 3 0 0 0

/-- A volume label reading A. -/
def slot_label_A : List Byte :=
  slot_bytes [0x41, 0x20, 0x20, 0x20, 0x20, 0x20, 0x20, 0x20, 0x20, 0x20, 0x20] 0x08 0 0 0 0 0 0

/-- A never-used slot: 32 zero bytes. -/
def slot_free : List Byte := List.replicate 32 0

/-- A directory table of two slots: a never-used slot, then the file A. -/
def table_free_then_A : List Byte := slot_free ++ slot_file_A

/-- A directory table of one slot holding the file A. -/
def table_only_A : List Byte := slot_file_A

/-- A directory table of two slots: the file A, then a never-used slot. -/
def table_A_then_free : List Byte := slot_file_A ++ slot_free

/-- A volume with 512-byte sectors, one sector per cluster and a root directory
of `cap` slots held in `table`; the other buffers are given. -/
def volume_of (spc : Byte) (cap : Byte) (fat table data : List Byte) : volume_t :=
  volume_t.mk
    (boot_sector_t.mk (List.replicate 11 0 ++ [0, 2, spc, 1, 0, 2, cap, 0]
      ++ List.replicate 491 0 ++ [0x55, 0xAA]))
    fat fat table data

/-- A FAT whose entry 2 is an end-of-chain mark (entries 0 and 1 reserved). -/
def fat_one_cluster : List Byte := [0xF8, 0xFF, 0xFF, 0xFF, 0xFF, 0xFF]

/-- A data area of one 512-byte cluster that starts with the bytes abc. -/
def data_abc : List Byte := [0x61, 0x62, 0x63] ++ List.replicate 509 0

/-- A volume whose root directory holds the file A alone. -/
def vol_A : volume_t := volume_of 1 1 fat_one_cluster table_only_A data_abc

/-- A volume whose root directory holds a volume label reading A, then the
file A. -/
def vol_label_then_A : volume_t :=
  volume_of 1 2 fat_one_cluster (slot_label_A ++ slot_file_A) data_abc

/-- The volume `vol_A` with `sectors_per_cluster` set to 0. -/
def vol_zero_cluster : volume_t := volume_of 0 1 fat_one_cluster table_only_A data_abc

/-- The stream over the file A of `vol_A`. -/
def stream_abc : file_t := file_t.mk (sfn_at table_only_A 0) [0x61, 0x62, 0x63] 0

/-- A FAT whose cluster 2 is followed by cluster 3, where the chain ends. -/
def fat_two_clusters : List Byte := [0xF8, 0xFF, 0xFF, 0xFF, 0x03, 0x00, 0xFF, 0xFF]

/-- A regular file named B, first cluster 2, 515 bytes. -/
def slot_file_B : List Byte :=
  slot_bytes [0x42, 0x20, 0x20, 0x20, 0x20, 0x20, 0x20, 0x20, 0x20, 0x20, 0x20] 0x20 2 0 3 2 0 0

/-- A data area of two 512-byte clusters: 512 bytes a, then bcd and zeros. -/
def data_two_clusters : List Byte :=
  List.replicate 512 0x61 ++ ([0x62, 0x63, 0x64] ++ List.replicate 509 0)

/-- A volume whose root directory holds the file B, stored in clusters 2
and 3. -/
def vol_B : volume_t := volume_of 1 1 fat_two_clusters slot_file_B data_two_clusters

/-- A regular file named A, first cluster 2, 65536 bytes. -/
def slot_file_64k : List Byte :=
  slot_bytes [0x41, 0x20, 0x20, 0x20, 0x20, 0x20, 0x20, 0x20, 0x20, 0x20, 0x20] 0x20 2 0 0 0 1 0

/-- A data area of one cluster of 130560 bytes, all of them 1. -/
@[irreducible]
def data_big : List Byte := List.replicate 130560 1

/-- A volume with 255 sectors of 512 bytes per cluster whose root directory
holds a file of 65536 bytes in cluster 2. -/
def vol_big : volume_t := volume_of 255 1 fat_one_cluster slot_file_64k data_big

/-- A 32-byte SFN record that is zero except for its `size` field. -/
def sfn_of_size (b0 b1 b2 b3 : Byte) : SFN :=
  SFN.mk (List.replicate 28 0 ++ [b0, b1, b2, b3])

/-- A buffer of 65536 bytes. -/
@[irreducible]
def data_64k : List Byte := malloc (fun _ => 7) 65536

/-- A buffer of 2147483648 bytes. -/
@[irreducible]
def data_2g : List Byte := malloc (fun _ => 7) 2147483648

/-- A freshly opened stream over a file of 65536 bytes. -/
def stream_64k : file_t := file_t.mk (sfn_of_size 0 0 1 0) data_64k 0

/-- A freshly opened stream over a file of 2147483648 bytes. -/
def stream_2g : file_t := file_t.mk (sfn_of_size 0 0 0 128) data_2g 0

/-- A freshly opened stream over the 13 bytes of the text Hello, World! -/
def stream_hello : file_t :=
  file_t.mk (sfn_of_size 13 0 0 0)
    [0x48, 0x65, 0x6c, 0x6c, 0x6f, 0x2c, 0x20, 0x57, 0x6f, 0x72, 0x6c, 0x64, 0x21] 0

/-- A buffer of 2147483653 bytes. -/
@[irreducible]
def data_2g5 : List Byte := malloc (fun _ => 7) 2147483653

/-- A stream over a file of 2^31 + 5 bytes with the cursor 11 bytes before the
end, as `file_seek(stream, 2147483642, SEEK_SET)` leaves it. -/
def stream_2g5 : file_t := file_t.mk (sfn_of_size 5 0 0 128) data_2g5 2147483642

/-! ## The cluster indices visited by the chain walk -/

/-- The values `index` takes at the loop test of `file_open`, in order.  The
FAT entry of each of them is read by the test; the cluster of each of them but
the last is copied by the loop body, and the cluster of the last one is the
source of the tail copy.  The walk stops at an end-of-chain entry, on an
access outside a buffer, or when the fuel runs out. -/
def chain_indices (v : volume_t) : Nat → Nat → Nat → List Byte → List Nat
  | 0, _, _, _ => []
  | fuel + 1, index, k, data =>
    index :: (match chain_step v index k data with
      | some (true, next, k1, data1) => chain_indices v fuel next k1 data1
      | _ => [])

/-- The number of whole clusters the data area holds, as the specification
counts them. -/
def total_data_clusters (v : volume_t) : Nat := v.data_area.length / v.cluster_bytes

/-! ## Example volumes for whole-cluster files and inconsistent chains -/

/-- A regular file named C, first cluster 2, 1024 bytes. -/
def slot_file_C : List Byte :=
  slot_bytes [0x43, 0x20, 0x20, 0x20, 0x20, 0x20, 0x20, 0x20, 0x20, 0x20, 0x20] 0x20 2 0 0 4 0 0

/-- A volume whose root directory holds the file C of 1024 bytes, stored in
the two 512-byte clusters 2 and 3. -/
def vol_C : volume_t := volume_of 1 1 fat_two_clusters slot_file_C data_two_clusters

/-- A volume whose file A has size 3 but a chain of two clusters, 2 and 3. -/
def vol_A_long : volume_t := volume_of 1 1 fat_two_clusters table_only_A data_two_clusters

/-! ## The disk and `fat_open` -/

/-- Conversion to `size_t` (64 bits). -/
def toU64 (x : Int) : Int := x % 18446744073709551616

def SECTOR_SIZE : Nat := 512
def SIGNATURE : Nat := 0xAA55

/-- The stream behind a `FILE *` opened with "rb": the bytes of the file and
the file position indicator. -/
structure FILE where
  bytes : List Byte
  pos : Nat
deriving DecidableEq, Repr

/-- The record `struct disk_t`. -/
structure disk_t where
  disk : FILE
deriving DecidableEq, Repr

/-- The call `fseek(f, offset, SEEK_SET)`: the stream and `errno` afterwards.
A negative offset fails with EINVAL and leaves the position where it was. -/
def fseek (f : FILE) (offset : Int) (errno : Int) : FILE × Int :=
  if offset < 0 then (f, EINVAL) else (FILE.mk f.bytes offset.toNat, errno)

/-- The call `fread(buffer, size, count, f)`: the number of complete items
read, the bytes stored in the buffer (those of a partial last item too) and
the stream afterwards.  A request of 2^63 bytes or more, as a negative count
converted to `size_t` gives, is refused by the underlying `read`: no item is
read, nothing is stored and the position stays where it was. -/
def fread (f : FILE) (size count : Nat) : Nat × List Byte × FILE :=
  if 9223372036854775808 ≤ size * count then (0, [], f)
  else
    let got := (f.bytes.drop f.pos).take (size * count)
    (got.length / size, got, FILE.mk f.bytes (f.pos + got.length))

/-- The function `disk_read` for non-null arguments (`first_sector` and
`sectors_to_read` are `int32_t` values): the return value, the bytes stored in
the buffer, the disk and `errno` afterwards. -/
def disk_read (pdisk : disk_t) (first_sector : Int) (sectors_to_read : Int) (errno : Int) :
    Int × List Byte × disk_t × Int :=
  let s := fseek pdisk.disk (toI32 (SECTOR_SIZE * first_sector)) errno
  let r := fread s.1 SECTOR_SIZE (toU64 sectors_to_read).toNat
  let result : Int := toI32 r.1
  if result ≠ sectors_to_read then (-1, r.2.1, disk_t.mk r.2.2, ERANGE)
  else (result, r.2.1, disk_t.mk r.2.2, s.2)

/-- The block returned by `malloc(n)` after `stored` has been written at its
start: the stored bytes, then what `malloc` left; `none` when the bytes do not
fit the block. -/
def fill (junk : Nat → Byte) (n : Nat) (stored : List Byte) : Option (List Byte) :=
  if stored.length ≤ n then some (stored ++ (malloc junk n).drop stored.length) else none

/-- The end of `fat_open`, after the read of the data area, whose outcome is
the last argument: the data area buffer of `data_area_size` bytes is filled
and the volume is returned.  A failed read sets `errno` to ENOMEM. -/
def fat_open_data_read (boot_sector : boot_sector_t) (primary_fat secondary_fat root_directory :
    List Byte) (data_area_size : Int) (junk : Nat → Byte) :
    Int × List Byte × disk_t × Int → Option (Option volume_t × Int)
  | (result, stored, _, errno1) =>
    match fill junk data_area_size.toNat stored with
    | none => none
    | some data_area =>
      if result = -1 then some (none, ENOMEM)
      else
        some (some (volume_t.mk boot_sector primary_fat secondary_fat root_directory data_area),
          errno1)

/-- The part of `fat_open` from the computation of `data_area_size_in_sectors`
on: the data area of `small_number_of_sectors - data_area_sector` sectors is
allocated and read from sector `data_area_sector`. -/
def fat_open_data (boot_sector : boot_sector_t) (primary_fat secondary_fat root_directory :
    List Byte) (pdisk : disk_t) (data_area_sector : Nat) (junk : Nat → Byte) (errno : Int) :
    Option (Option volume_t × Int) :=
  if toI32 (((boot_sector.small_number_of_sectors : Int) - (data_area_sector : Int))
      * (boot_sector.bytes_per_sector : Int)) < 0 then some (none, ENOMEM)
  else
    fat_open_data_read boot_sector primary_fat secondary_fat root_directory
      (toI32 (((boot_sector.small_number_of_sectors : Int) - (data_area_sector : Int))
        * (boot_sector.bytes_per_sector : Int))) junk
      (disk_read pdisk data_area_sector
        ((boot_sector.small_number_of_sectors : Int) - (data_area_sector : Int)) errno)

/-- The part of `fat_open` after the read of the root directory, whose outcome
is the last argument: the root directory buffer of `root_directory_size` bytes
is filled, then the data area is read from sector `data_area_sector`. -/
def fat_open_root_read (boot_sector : boot_sector_t) (primary_fat secondary_fat : List Byte)
    (root_directory_size data_area_sector : Nat) (junk : Nat → Nat → Byte) :
    Int × List Byte × disk_t × Int → Option (Option volume_t × Int)
  | (result, stored, pdisk1, errno1) =>
    match fill (junk 2) root_directory_size stored with
    | none => none
    | some root_directory =>
      if result = -1 then some (none, ERANGE)
      else
        fat_open_data boot_sector primary_fat secondary_fat root_directory pdisk1
          data_area_sector (junk 3) errno1

/-- The part of `fat_open` after the comparison of the two FATs: the root
directory of `root_dir_capacity * ENTRY_SIZE` bytes is allocated and its
`root_directory_size / bytes_per_sector` sectors are read from sector
`fat_sector + sectors_per_fat`, where `fat_sector` is the `uint8_t` variable
as the second FAT read left it; the data area starts right after. -/
def fat_open_root (boot_sector : boot_sector_t) (primary_fat secondary_fat : List Byte)
    (pdisk : disk_t) (fat_sector : Nat) (junk : Nat → Nat → Byte) (errno : Int) :
    Option (Option volume_t × Int) :=
  if boot_sector.bytes_per_sector = 0 then none
  else
    fat_open_root_read boot_sector primary_fat secondary_fat
      (boot_sector.root_dir_capacity * ENTRY_SIZE)
      (fat_sector + boot_sector.sectors_per_fat
        + boot_sector.root_dir_capacity * ENTRY_SIZE / boot_sector.bytes_per_sector) junk
      (disk_read pdisk ((fat_sector + boot_sector.sectors_per_fat : Nat) : Int)
        ((boot_sector.root_dir_capacity * ENTRY_SIZE / boot_sector.bytes_per_sector : Nat) : Int)
        errno)

/-- The part of `fat_open` after the second FAT read, whose outcome is the
last argument: the second FAT buffer is filled and compared with the first,
then the root directory and the data area are read.  `fat_sector` is the
`uint8_t` variable after `fat_sector += sectors_per_fat`.  Both FAT buffers
hold `fat_size` bytes, so `memcmp` over `fat_size` bytes compares them
whole. -/
def fat_open_secondary (boot_sector : boot_sector_t) (fat_size : Int) (primary_fat : List Byte)
    (fat_sector : Nat) (junk : Nat → Nat → Byte) :
    Int × List Byte × disk_t × Int → Option (Option volume_t × Int)
  | (result, stored, pdisk1, errno1) =>
    match fill (junk 1) fat_size.toNat stored with
    | none => none
    | some secondary_fat =>
      if result = -1 then some (none, ERANGE)
      else if primary_fat ≠ secondary_fat then some (none, EINVAL)
      else fat_open_root boot_sector primary_fat secondary_fat pdisk1 fat_sector junk errno1

/-- The part of `fat_open` after the first FAT read, whose outcome is the last
argument: the first FAT buffer is filled, `fat_sector` (a `uint8_t`) is
advanced by `sectors_per_fat` modulo 256 and the second FAT is read from
there. -/
def fat_open_primary (boot_sector : boot_sector_t) (fat_size : Int) (fat_sector : Nat)
    (junk : Nat → Nat → Byte) :
    Int × List Byte × disk_t × Int → Option (Option volume_t × Int)
  | (result, stored, pdisk1, errno1) =>
    match fill (junk 0) fat_size.toNat stored with
    | none => none
    | some primary_fat =>
      if result = -1 then some (none, ERANGE)
      else
        fat_open_secondary boot_sector fat_size primary_fat
          ((fat_sector + boot_sector.sectors_per_fat) % 256) junk
          (disk_read pdisk1 (((fat_sector + boot_sector.sectors_per_fat) % 256 : Nat) : Int)
            (boot_sector.sectors_per_fat : Int) errno1)

/-- The part of `fat_open` after the signature check: the two FAT buffers of
`fat_size = sectors_per_fat * bytes_per_sector` bytes are allocated and the
first FAT is read from sector `fat_sector`, a `uint8_t` that holds
`reserved_sectors` modulo 256. -/
def fat_open_fats (boot_sector : boot_sector_t) (pdisk : disk_t) (junk : Nat → Nat → Byte)
    (errno : Int) : Option (Option volume_t × Int) :=
  if toI32 ((boot_sector.sectors_per_fat : Int) * (boot_sector.bytes_per_sector : Int)) < 0 then
    some (none, ENOMEM)
  else
    fat_open_primary boot_sector
      (toI32 ((boot_sector.sectors_per_fat : Int) * (boot_sector.bytes_per_sector : Int)))
      (boot_sector.reserved_sectors % 256) junk
      (disk_read pdisk ((boot_sector.reserved_sectors % 256 : Nat) : Int)
        (boot_sector.sectors_per_fat : Int) errno)

/-- The part of `fat_open` after the boot sector read, whose outcome is the
argument: the signature is checked and the rest of the volume is read. -/
def fat_open_boot (junk : Nat → Nat → Byte) :
    Int × List Byte × disk_t × Int → Option (Option volume_t × Int)
  | (result, stored, pdisk1, errno1) =>
    if result = -1 then some (none, ERANGE)
    else if (boot_sector_t.mk stored).signature ≠ SIGNATURE then some (none, EINVAL)
    else fat_open_fats (boot_sector_t.mk stored) pdisk1 junk errno1

/-- The function `fat_open` for a non-null disk, with every allocation of a
non-negative size succeeding (a negative `int` size becomes a huge `size_t`,
which `malloc` refuses); `junk 0` .. `junk 3` are the indeterminate contents
of the four buffers.  The result is the volume (or null) and `errno`
afterwards; it is `none` on a division by zero or a write outside a buffer.
The body is cut at each `disk_read` call: `fat_open_boot`, `fat_open_fats`,
`fat_open_primary`, `fat_open_secondary`, `fat_open_root`,
`fat_open_root_read`, `fat_open_data` and `fat_open_data_read` are its
consecutive parts. -/
def fat_open (pdisk : disk_t) (first_sector : Nat) (junk : Nat → Nat → Byte) (errno : Int) :
    Option (Option volume_t × Int) :=
  fat_open_boot junk (disk_read pdisk (toI32 first_sector) 1 errno)

/-! ## Example disk images -/

/-- A boot sector with 512-byte sectors, one sector per cluster, two FATs and
a valid signature; the reserved sector count, the root directory capacity, the
total sector count and the sectors per FAT are given as byte pairs. -/
def boot_of (r0 r1 cap0 cap1 small0 small1 spf0 spf1 : Byte) : List Byte :=
  List.replicate 11 0 ++ [0, 2, 1, r0, r1, 2, cap0, cap1, small0, small1, 0xF8, spf0, spf1]
    ++ List.replicate 486 0 ++ [0x55, 0xAA]

/-- A sector holding the FAT `fat_one_cluster`, padded with zeros. -/
def sector_fat : List Byte := fat_one_cluster ++ List.replicate 506 0

/-- A regular file named E, first cluster 0, 0 bytes. -/
def slot_file_E : List Byte :=
  slot_bytes [0x45, 0x20, 0x20, 0x20, 0x20, 0x20, 0x20, 0x20, 0x20, 0x20, 0x20] 0x20 0 0 0 0 0 0

/-- A root directory sector: the empty file E, then fifteen never-used slots. -/
def sector_root_E : List Byte := slot_file_E ++ List.replicate 480 0

/-- An image of five sectors: the boot sector (1 reserved sector, 1 sector per
FAT, 16 root slots, 5 sectors in all), two equal FATs, the root directory with
the empty file E, and one data cluster. -/
def image_E : List Byte :=
  boot_of 1 0 16 0 5 0 1 0 ++ sector_fat ++ sector_fat ++ sector_root_E ++ data_abc

/-- The image `image_E` cut after the root directory: the boot sector
announces 5 sectors but the file holds 4. -/
def image_short : List Byte :=
  boot_of 1 0 16 0 5 0 1 0 ++ sector_fat ++ sector_fat ++ sector_root_E

/-- The image `image_E` with the signature bytes of the boot sector zeroed. -/
def image_unsigned : List Byte :=
  (boot_of 1 0 16 0 5 0 1 0).take 510 ++ [0, 0] ++ sector_fat ++ sector_fat ++ sector_root_E
    ++ data_abc

/-- The 131071 zero bytes that follow the first byte of each FAT copy of
`image_wide`. -/
@[irreducible]
def fat_rest_wide : List Byte := List.replicate 131071 0

/-- The FAT #1 region of `image_wide` (256 sectors): the media byte 0xF8, then
zeros. -/
def fat1_wide : List Byte := 0xF8 :: fat_rest_wide

/-- The FAT #2 region of `image_wide` (256 sectors), which differs from FAT #1
in its first byte. -/
def fat2_wide : List Byte := 0x00 :: fat_rest_wide

/-- The boot sector of `image_wide`: 512-byte sectors, 1 reserved sector, 256
sectors per FAT, 16 root slots, 515 sectors in all. -/
def boot_wide : List Byte := boot_of 1 0 16 0 3 2 0 1

/-- An image of 515 sectors with 256 sectors per FAT: the boot sector, FAT #1
in sectors 1..256, FAT #2 in sectors 257..512, the root directory (the empty
file E) in sector 513 and one data cluster in sector 514. -/
def image_wide : List Byte :=
  boot_wide ++ (fat1_wide ++ (fat2_wide ++ (sector_root_E ++ data_abc)))

/-- The zero bytes of sectors 5..4194303 of `image_far`. -/
@[irreducible]
def far_pad : List Byte := List.replicate 2147481088 0

/-- A sector of 512 zero bytes. -/
def sector_zero : List Byte := List.replicate 512 0

/-- An image of 4194305 sectors: the five sectors of `image_E` (a valid boot
sector in sector 0), then zero sectors up to and including sector 4194304. -/
def image_far : List Byte :=
  boot_of 1 0 16 0 5 0 1 0
    ++ (sector_fat ++ (sector_fat ++ (sector_root_E ++ (data_abc ++ (far_pad ++ sector_zero)))))

/-! # Theorems -/

theorem malloc_length (junk : Nat → Byte) (n : Nat) : (malloc junk n).length = n := by
  simp [malloc]

theorem length_data_64k : data_64k.length = 65536 := by
  unfold data_64k
  exact malloc_length _ _

theorem size_stream_64k : stream_64k.handle.size = 65536 := by decide

theorem size_stream_2g : stream_2g.handle.size = 2147483648 := by decide

/-- After any `file_seek` call on a stream whose size is below 2^31, the cursor
is either unchanged or inside `[0, size]`; data and SFN copy are unchanged. -/
theorem file_seek_keeps (s : file_t) (offset whence errno : Int)
    (hsz : s.handle.size < 2147483648)
    (ho0 : -2147483648 ≤ offset) (ho1 : offset < 2147483648) :
    ((file_seek s offset whence errno).2.1.current_byte = s.current_byte
      ∨ (0 ≤ (file_seek s offset whence errno).2.1.current_byte
        ∧ (file_seek s offset whence errno).2.1.current_byte ≤ s.handle.size))
    ∧ (file_seek s offset whence errno).2.1.data = s.data
    ∧ (file_seek s offset whence errno).2.1.handle = s.handle := by
  unfold file_seek
  simp only [toU32, toI32, SEEK_SET, SEEK_CUR, SEEK_END]
  split_ifs <;> simp <;> omega

/-- The stream left by a successful `file_read` is the one left by its inner
`file_seek(stream, n, SEEK_CUR)` with a 16-bit `n`, or the stream itself. -/
theorem file_read_stream (s : file_t) (size nmemb : Nat) (errno : Int)
    (r : Nat × List Byte × file_t × Int) (h : file_read s size nmemb errno = some r) :
    r.2.2.1 = s ∨ ∃ x : Int, 0 ≤ x ∧ x < 65536 ∧
      r.2.2.1 = (file_seek s x SEEK_CUR errno).2.1 := by
  unfold file_read at h
  simp only at h
  have hb : ∀ y : Int, 0 ≤ toU16 y ∧ toU16 y < 65536 := fun y => by unfold toU16; omega
  split_ifs at h with h1 h2 h3
  · left
    simp at h
    rw [← h]
  · right
    split at h
    · simp at h
    · simp at h
      exact ⟨_, (hb _).1, (hb _).2, by rw [← h]⟩
  · split at h <;> simp at h
  · right
    split at h
    · simp at h
    · simp at h
      exact ⟨_, (hb _).1, (hb _).2, by rw [← h]⟩

/-- C3 (as amended): on every stream whose size is below 2^31 and whose cursor
is inside `[0, size]`, for every 32-bit offset and every whence, `file_seek`
returns, sets the cursor and sets errno exactly as its reference definition
does: BAD_ARG for an unknown whence, SET with a negative offset or END with a
positive one; otherwise NO_SUCH_ADDR when the target is outside `[0, size]`;
otherwise the target.  On failure the stream is unchanged. -/
theorem file_seek_matches_ref (s : file_t) (offset whence errno : Int)
    (hsz : s.handle.size < 2147483648)
    (hp0 : 0 ≤ s.current_byte) (hp1 : s.current_byte ≤ s.handle.size)
    (ho0 : -2147483648 ≤ offset) (ho1 : offset < 2147483648) :
    file_seek s offset whence errno =
      ((file_seek_ref s offset whence errno).1,
       file_t.mk s.handle s.data (file_seek_ref s offset whence errno).2.1,
       (file_seek_ref s offset whence errno).2.2) := by
  unfold file_seek file_seek_ref
  simp only [toU32, toI32, SEEK_SET, SEEK_CUR, SEEK_END]
  split_ifs <;> simp <;> omega

theorem file_seek_matches_ref_witness :
    file_seek stream_hello 7 SEEK_SET 0 =
      ((file_seek_ref stream_hello 7 SEEK_SET 0).1,
       file_t.mk stream_hello.handle stream_hello.data (file_seek_ref stream_hello 7 SEEK_SET 0).2.1,
       (file_seek_ref stream_hello 7 SEEK_SET 0).2.2) :=
  file_seek_matches_ref stream_hello 7 SEEK_SET 0 (by decide) (by decide) (by decide)
    (by decide) (by decide)

/-- C3 fails as stated: on a stream of 2147483648 bytes with the cursor at 0,
`file_seek(stream, 0, SEEK_END)` has target 2147483648, inside `[0, size]`, yet
the call returns -2147483648 and stores that negative value in `current_byte`,
where the reference returns the target. -/
theorem file_seek_end_wraps_at_2g :
    stream_2g.handle.size = 2147483648 ∧ stream_2g.current_byte = 0
    ∧ (file_seek stream_2g 0 SEEK_END 0).1 = -2147483648
    ∧ (file_seek stream_2g 0 SEEK_END 0).2.1.current_byte = -2147483648
    ∧ file_seek_ref stream_2g 0 SEEK_END 0 = (2147483648, 2147483648, 0) := by
  refine ⟨by decide, by decide, by decide, by decide, by decide⟩

/-- C5 (as amended): on a stream whose size is below 2^31, every state reached
from a freshly opened stream (cursor 0) by any finite sequence of `file_read`
and `file_seek` calls, successful or not, has `0 ≤ current_byte ≤ size`, and
its data buffer and SFN copy are those of the opened stream. -/
theorem cursor_invariant (s0 s : file_t) (h0 : s0.current_byte = 0)
    (hsz : s0.handle.size < 2147483648) (hr : Reachable s0 s) :
    0 ≤ s.current_byte ∧ s.current_byte ≤ s.handle.size
      ∧ s.data = s0.data ∧ s.handle = s0.handle := by
  induction hr with
  | init => exact ⟨by omega, by omega, rfl, rfl⟩
  | read s size nmemb errno r _ hread ih =>
    obtain ⟨i0, i1, i2, i3⟩ := ih
    rcases file_read_stream s size nmemb errno r hread with h | ⟨x, hx0, hx1, h⟩
    · rw [h]; exact ⟨i0, i1, i2, i3⟩
    · rw [h]
      have hk := file_seek_keeps s x SEEK_CUR errno (by rw [i3]; exact hsz) (by omega) (by omega)
      obtain ⟨hc, hd, hh⟩ := hk
      rw [hd, hh]
      refine ⟨?_, ?_, i2, i3⟩ <;> rcases hc with hc | hc <;> omega
  | seek s offset whence errno _ ho0 ho1 ih =>
    obtain ⟨i0, i1, i2, i3⟩ := ih
    have hk := file_seek_keeps s offset whence errno (by rw [i3]; exact hsz) ho0 ho1
    obtain ⟨hc, hd, hh⟩ := hk
    rw [hd, hh]
    refine ⟨?_, ?_, i2, i3⟩ <;> rcases hc with hc | hc <;> omega

theorem cursor_invariant_witness :
    0 ≤ (file_seek stream_hello 7 SEEK_SET 0).2.1.current_byte
      ∧ (file_seek stream_hello 7 SEEK_SET 0).2.1.current_byte
          ≤ (file_seek stream_hello 7 SEEK_SET 0).2.1.handle.size
      ∧ (file_seek stream_hello 7 SEEK_SET 0).2.1.data = stream_hello.data
      ∧ (file_seek stream_hello 7 SEEK_SET 0).2.1.handle = stream_hello.handle :=
  cursor_invariant stream_hello _ (by decide) (by decide)
    (Reachable.seek stream_hello 7 SEEK_SET 0 Reachable.init (by decide) (by decide))

/-- C5 fails as stated: from a freshly opened stream of 2147483648 bytes the
single call `file_seek(stream, 0, SEEK_END)` reaches a state whose
`current_byte` is negative. -/
theorem cursor_negative_at_2g :
    stream_2g.current_byte = 0
    ∧ Reachable stream_2g (file_seek stream_2g 0 SEEK_END 0).2.1
    ∧ (file_seek stream_2g 0 SEEK_END 0).2.1.current_byte < 0 :=
  ⟨by decide, Reachable.seek stream_2g 0 SEEK_END 0 Reachable.init (by decide) (by decide),
    by decide⟩

/-- On a stream of 65536 bytes with the cursor at 0 a one-byte `file_read`
returns 0 at once: the 16-bit `bytes_left_to_read` is 65536 mod 65536. -/
theorem file_read_64k (errno : Int) :
    file_read stream_64k 1 1 errno = some (0, [], stream_64k, errno) := by
  have h : toU16 (toU32 (stream_64k.handle.size - toU32 stream_64k.current_byte)) = 0 := by
    decide
  unfold file_read
  exact if_pos h

/-- C2: on a freshly opened stream of 65536 bytes, `file_read(ptr, 1, 1, stream)`
returns 0, copies nothing and leaves the cursor at 0, because the remaining
byte count is kept in 16 bits; the reference, with 65536 bytes remaining and 1
requested, copies one byte, moves the cursor to 1 and returns 1. -/
theorem file_read_zero_at_64k :
    stream_64k.handle.size = 65536 ∧ stream_64k.data.length = 65536
    ∧ stream_64k.current_byte = 0
    ∧ file_read stream_64k 1 1 0 = some (0, [], stream_64k, 0)
    ∧ (file_read_ref stream_64k 1 1).1 = 1
    ∧ (file_read_ref stream_64k 1 1).2.2 = 1 :=
  ⟨by decide, length_data_64k, by decide, file_read_64k 0, by decide, by decide⟩

/-- C4: on a freshly opened stream of 65536 bytes, one-byte reads repeated
until a call returns 0 deliver no byte at all (the first call already returns
0), where the claim promises `size` = 65536 bytes. -/
theorem read_all_empty_at_64k :
    stream_64k.handle.size = 65536 ∧ stream_64k.data.length = 65536
    ∧ stream_64k.current_byte = 0
    ∧ ∀ (fuel : Nat) (errno : Int), read_all (fuel + 1) stream_64k errno = some ([], stream_64k) := by
  refine ⟨by decide, length_data_64k, by decide, ?_⟩
  intro fuel errno
  rw [read_all, file_read_64k]
  rfl

/-! ## Names and entries -/

theorem visible_false (table : List Byte) (i : Nat) (h : visible table i = false) :
    ((sfn_at table i).filename 0 = 0x00 ∨ (sfn_at table i).filename 0 = 0xe5)
      ∨ (sfn_at table i).file_attributes &&& ATTR_VOLUME_LABEL ≠ 0 := by
  unfold visible at h
  simp only [Bool.and_eq_false_iff, decide_eq_false_iff_not, ne_eq, not_not] at h
  tauto

theorem visible_true (table : List Byte) (i : Nat) (h : visible table i = true) :
    ¬ ((sfn_at table i).filename 0 = 0x00 ∨ (sfn_at table i).filename 0 = 0xe5)
      ∧ ¬ (sfn_at table i).file_attributes &&& ATTR_VOLUME_LABEL ≠ 0 := by
  unfold visible at h
  simp only [Bool.and_eq_true, decide_eq_true_eq, ne_eq] at h
  tauto

/-- One step of the scanning loop on a slot that is not visible. -/
theorem dir_scan_skip (table : List Byte) (m cur : Nat) (h : visible table cur = false) :
    dir_scan table (m + 1) cur = dir_scan table m (cur + 1) := by
  rcases visible_false table cur h with h1 | h1
  · rw [dir_scan]; simp only [if_pos h1]
  · rw [dir_scan]
    by_cases h0 : (sfn_at table cur).filename 0 = 0x00 ∨ (sfn_at table cur).filename 0 = 0xe5
    · simp only [if_pos h0]
    · simp only [if_neg h0, if_pos h1]

/-- One step of the scanning loop on a visible slot. -/
theorem dir_scan_emit (table : List Byte) (m cur : Nat) (h : visible table cur = true) :
    dir_scan table (m + 1) cur = (0, some (make_entry (sfn_at table cur)), cur + 1) := by
  obtain ⟨h0, h1⟩ := visible_true table cur h
  rw [dir_scan]
  simp only [if_neg h0, if_neg h1]

/-- The scanning loop over slots none of which is visible falls through. -/
theorem dir_scan_none (table : List Byte) (m cur : Nat)
    (h : ∀ i, cur ≤ i → i < cur + m → visible table i = false) :
    dir_scan table m cur = (1, none, cur + m) := by
  induction m generalizing cur with
  | zero => rfl
  | succ m ih =>
    rw [dir_scan_skip table m cur (h cur (by omega) (by omega)),
      ih (cur + 1) (fun i h1 h2 => h i (by omega) (by omega))]
    simp only [Prod.mk.injEq, true_and]
    omega

/-- The scanning loop stops at the first visible slot. -/
theorem dir_scan_first (table : List Byte) (m cur i : Nat) (h1 : cur ≤ i) (h2 : i < cur + m)
    (hv : visible table i = true) (h : ∀ j, cur ≤ j → j < i → visible table j = false) :
    dir_scan table m cur = (0, some (make_entry (sfn_at table i)), i + 1) := by
  induction m generalizing cur with
  | zero => omega
  | succ m ih =>
    by_cases hc : cur = i
    · subst hc
      exact dir_scan_emit table m cur hv
    · rw [dir_scan_skip table m cur (h cur (by omega) (by omega))]
      exact ih (cur + 1) (by omega) (by omega) (fun j a b => h j (by omega) b)

/-- C6 (as amended): on a cursor whose current slot has first filename byte
0x00, `dir_read` does not emit that slot and does not stop there: it skips the
slot as it skips a deleted one.  It returns 1 (END), with the cursor at the
end of the table, when no later slot is visible, and otherwise returns 0 and
emits the first visible slot after it, leaving the cursor just past that
slot. -/
theorem dir_read_skips_zero_slot (pdir : dir_t) (errno : Int)
    (hcur : pdir.current_entry < pdir.number_of_entries)
    (hzero : (sfn_at pdir.dir pdir.current_entry).filename 0 = 0x00) :
    ((∀ i, pdir.current_entry < i → i < pdir.number_of_entries → visible pdir.dir i = false) →
      dir_read pdir errno
        = (1, none, dir_t.mk pdir.dir pdir.number_of_entries pdir.number_of_entries, errno))
    ∧ ∀ i, pdir.current_entry < i → i < pdir.number_of_entries → visible pdir.dir i = true →
        (∀ j, pdir.current_entry < j → j < i → visible pdir.dir j = false) →
        dir_read pdir errno
          = (0, some (make_entry (sfn_at pdir.dir i)),
              dir_t.mk pdir.dir pdir.number_of_entries (i + 1), errno) := by
  have hinv : visible pdir.dir pdir.current_entry = false := by
    unfold visible
    simp [hzero]
  constructor
  · intro h
    unfold dir_read
    rw [if_neg (by omega)]
    rw [dir_scan_none pdir.dir _ pdir.current_entry (fun i a b => by
      by_cases hi : i = pdir.current_entry
      · rw [hi]; exact hinv
      · exact h i (by omega) (by omega))]
    simp only [Prod.mk.injEq, true_and, and_true, dir_t.mk.injEq]
    omega
  · intro i h1 h2 hv h
    unfold dir_read
    rw [if_neg (by omega)]
    rw [dir_scan_first pdir.dir _ pdir.current_entry i (by omega) (by omega) hv (fun j a b => by
      by_cases hj : j = pdir.current_entry
      · rw [hj]; exact hinv
      · exact h j (by omega) b)]

theorem dir_read_skips_zero_slot_witness :
    dir_read (dir_t.mk table_free_then_A 2 0) 0
      = (0, some (make_entry (sfn_at table_free_then_A 1)), dir_t.mk table_free_then_A 2 2, 0) :=
  (dir_read_skips_zero_slot (dir_t.mk table_free_then_A 2 0) 0 (by decide) (by decide)).2 1
    (by decide) (by decide) (by decide) (fun j a b => absurd b (by simp at a; omega))

/-- C6 fails as stated: on a table whose slot 0 has first byte 0x00 and whose
slot 1 holds the file A, `dir_read` at slot 0 returns 0, not 1, and emits the
entry of slot 1, a slot located after the first 0x00 slot. -/
theorem dir_read_passes_zero_slot :
    (sfn_at table_free_then_A 0).filename 0 = 0x00
    ∧ (dir_read (dir_t.mk table_free_then_A 2 0) 0).1 = 0
    ∧ (dir_read (dir_t.mk table_free_then_A 2 0) 0).2.1 = some (make_entry (sfn_at table_free_then_A 1))
    ∧ (make_entry (sfn_at table_free_then_A 1)).name = [0x41, 0, 0, 0, 0, 0, 0, 0, 0, 0, 0, 0, 0] := by
  decide

theorem dir_read_at_end (table : List Byte) (n : Nat) (errno : Int) :
    dir_read (dir_t.mk table n n) errno = (-1, none, dir_t.mk table n n, ENXIO) := by
  simp [dir_read]

theorem dir_read_inside (table : List Byte) (n cur m : Nat) (errno : Int) (h : cur + (m + 1) = n) :
    dir_read (dir_t.mk table n cur) errno
      = ((dir_scan table (m + 1) cur).1, (dir_scan table (m + 1) cur).2.1,
          dir_t.mk table n (dir_scan table (m + 1) cur).2.2, errno) := by
  unfold dir_read
  have h1 : ¬ cur = n := by omega
  have h2 : n - cur = m + 1 := by omega
  simp only [h1, if_false, h2]

/-- The iteration from a cursor with `m > 0` slots left. -/
theorem dir_iterate_from (table : List Byte) (n : Nat) (errno : Int) (m : Nat) :
    ∀ cur fuel, cur + m = n → 0 < m → m + 1 ≤ fuel →
      dir_iterate fuel (dir_t.mk table n cur) errno
        = some (((List.range' cur m).filter (visible table)).map
                  (fun i => (make_entry (sfn_at table i), i + 1)),
                if visible table (n - 1) = true then -1 else 1) := by
  induction m with
  | zero => intro cur fuel _ h; omega
  | succ m ih =>
    intro cur fuel hn _ hfuel
    obtain ⟨f, rfl⟩ : ∃ f, fuel = f + 1 := ⟨fuel - 1, by omega⟩
    rw [dir_iterate, dir_read_inside table n cur m errno hn]
    cases hv : visible table cur with
    | true =>
      rw [dir_scan_emit table m cur hv]
      simp only [if_true]
      rcases Nat.eq_zero_or_pos m with hm | hm
      · subst hm
        have hc : cur + 1 = n := by omega
        obtain ⟨g, rfl⟩ : ∃ g, f = g + 1 := ⟨f - 1, by omega⟩
        have hl : n - 1 = cur := by omega
        rw [hc, dir_iterate, dir_read_at_end, hl]
        simp [hv, List.range', ← hc]
      · rw [ih (cur + 1) f (by omega) hm (by omega)]
        simp [List.range', hv]
    | false =>
      rw [dir_scan_skip table m cur hv]
      rcases Nat.eq_zero_or_pos m with hm | hm
      · subst hm
        have hl : n - 1 = cur := by omega
        simp [dir_scan, hl, hv, List.range']
      · have h2 := ih (cur + 1) (f + 1) (by omega) hm (by omega)
        obtain ⟨m1, rfl⟩ : ∃ m1, m = m1 + 1 := ⟨m - 1, by omega⟩
        rw [dir_iterate, dir_read_inside table n (cur + 1) m1 errno (by omega)] at h2
        rw [h2]
        simp [List.range', hv]

/-- C7 (as amended): starting from the cursor `dir_open` returns for the root
path and calling `dir_read` until it returns a non-zero value, the entries
emitted are exactly the slots whose first byte is neither 0x00 nor 0xE5 and
whose attributes lack VOLUME_LABEL, each once and in increasing slot order,
the cursor standing just past each emitted slot; the call that ends the
iteration returns -1 when the table has no slot or its last slot is visible,
and 1 otherwise. -/
theorem dir_iterate_full (v : volume_t) (fuel : Nat) (errno : Int)
    (hfuel : v.boot_sector.root_dir_capacity + 1 ≤ fuel) :
    ∃ pdir, dir_open v [0x5C] errno = (some pdir, errno)
      ∧ dir_iterate fuel pdir errno
        = some (((List.range v.boot_sector.root_dir_capacity).filter
                    (visible v.root_directory)).map
                  (fun i => (make_entry (sfn_at v.root_directory i), i + 1)),
                if v.boot_sector.root_dir_capacity = 0
                    ∨ visible v.root_directory (v.boot_sector.root_dir_capacity - 1) = true
                then -1 else 1) := by
  refine ⟨dir_t.mk v.root_directory v.boot_sector.root_dir_capacity 0, by
    simp [dir_open, strcmp], ?_⟩
  rcases Nat.eq_zero_or_pos v.boot_sector.root_dir_capacity with hn | hn
  · obtain ⟨f, rfl⟩ : ∃ f, fuel = f + 1 := ⟨fuel - 1, by omega⟩
    rw [hn, dir_iterate, dir_read_at_end]
    simp
  · rw [dir_iterate_from v.root_directory _ errno _ 0 fuel (by omega) hn hfuel,
      List.range_eq_range']
    have h0 : ¬ v.boot_sector.root_dir_capacity = 0 := by omega
    simp only [h0, false_or]

theorem dir_iterate_full_witness :
    ∃ pdir, dir_open (volume_of 1 2 [] table_A_then_free []) [0x5C] 0 = (some pdir, 0)
      ∧ dir_iterate 3 pdir 0
        = some (((List.range (volume_of 1 2 [] table_A_then_free []).boot_sector.root_dir_capacity).filter
                    (visible (volume_of 1 2 [] table_A_then_free []).root_directory)).map
                  (fun i => (make_entry (sfn_at (volume_of 1 2 [] table_A_then_free []).root_directory i), i + 1)),
                if (volume_of 1 2 [] table_A_then_free []).boot_sector.root_dir_capacity = 0
                    ∨ visible (volume_of 1 2 [] table_A_then_free []).root_directory
                        ((volume_of 1 2 [] table_A_then_free []).boot_sector.root_dir_capacity - 1) = true
                then -1 else 1) :=
  dir_iterate_full (volume_of 1 2 [] table_A_then_free []) 3 0 (by decide)

/-- C7 fails as stated: on a root directory of one slot that holds the file A,
the iteration emits that entry and the call that ends it returns -1, not 1. -/
theorem dir_iterate_ends_with_error :
    (dir_open (volume_of 1 1 [] table_only_A []) [0x5C] 0).1
        = some (dir_t.mk table_only_A 1 0)
    ∧ dir_iterate 2 (dir_t.mk table_only_A 1 0) 0
        = some ([(make_entry (sfn_at table_only_A 0), 1)], -1)
    ∧ visible table_only_A 0 = true := by
  decide

/-! ## `file_open`: the directory scan -/

theorem strcmp_eq_zero_iff (a b : List Byte) : strcmp a b = 0 ↔ cstr a = cstr b := by
  induction a generalizing b with
  | nil =>
    cases b with
    | nil => simp [strcmp, cstr]
    | cons b bs =>
      by_cases hb : b = 0
      · simp [strcmp, cstr, hb]
      · have : (b.val : Int) ≠ 0 := by
          intro h
          exact hb (Fin.ext (by simpa using h))
        simp [strcmp, cstr, hb, List.takeWhile]
        omega
  | cons a as ih =>
    cases b with
    | nil =>
      by_cases ha : a = 0
      · simp [strcmp, cstr, ha]
      · have : (a.val : Int) ≠ 0 := by
          intro h
          exact ha (Fin.ext (by simpa using h))
        simp [strcmp, cstr, ha, List.takeWhile]
        omega
    | cons b bs =>
      by_cases hab : a = b
      · subst hab
        by_cases ha : a = 0
        · simp [strcmp, cstr, ha]
        · have h := ih bs
          simp only [cstr] at h
          simp [strcmp, cstr, ha, List.takeWhile, h]
      · have hv : (a.val : Int) - (b.val : Int) ≠ 0 := by
          intro h
          exact hab (Fin.ext (by omega))
        by_cases ha : a = 0 <;> by_cases hb : b = 0 <;>
          simp [strcmp, cstr, ha, hb, hab, List.takeWhile, hv]
        · exact ⟨fun h => hb h.symm, fun h => hb (Fin.ext (by simpa using h))⟩
        · exact fun h => ha (Fin.ext (by simpa using h))


theorem name_matches_false (v : volume_t) (name : List Byte) (i : Nat)
    (h : name_matches v name i = false) :
    ((sfn_at v.root_directory i).filename 0 = 0x00 ∨ (sfn_at v.root_directory i).filename 0 = 0xe5)
      ∨ ¬ strcmp name (sfn_name (sfn_at v.root_directory i)) = 0 := by
  unfold name_matches at h
  rw [strcmp_eq_zero_iff]
  simp only [Bool.and_eq_false_iff, decide_eq_false_iff_not, ne_eq, not_not] at h
  tauto

theorem name_matches_true (v : volume_t) (name : List Byte) (i : Nat)
    (h : name_matches v name i = true) :
    ¬ ((sfn_at v.root_directory i).filename 0 = 0x00 ∨ (sfn_at v.root_directory i).filename 0 = 0xe5)
      ∧ strcmp name (sfn_name (sfn_at v.root_directory i)) = 0 := by
  unfold name_matches at h
  rw [strcmp_eq_zero_iff]
  simp only [Bool.and_eq_true, decide_eq_true_eq, ne_eq] at h
  tauto

/-- What `file_open` does once slot `i` has matched. -/
theorem file_open_scan_hit (v : volume_t) (name : List Byte) (junk : Nat → Byte) (fuel : Nat)
    (errno : Int) (m i : Nat) (h : name_matches v name i = true) :
    file_open_scan v name junk fuel errno (m + 1) i
      = if is_dir_or_label (sfn_at v.root_directory i) = true then some (none, EISDIR)
        else (reconstruct v (sfn_at v.root_directory i) junk fuel).map (fun f => (some f, errno)) := by
  obtain ⟨h0, h1⟩ := name_matches_true v name i h
  rw [file_open_scan]
  simp only [if_neg h0, if_pos h1, is_dir_or_label, Bool.or_eq_true, decide_eq_true_eq]

theorem file_open_scan_skip (v : volume_t) (name : List Byte) (junk : Nat → Byte) (fuel : Nat)
    (errno : Int) (m i : Nat) (h : name_matches v name i = false) :
    file_open_scan v name junk fuel errno (m + 1) i
      = file_open_scan v name junk fuel errno m (i + 1) := by
  rw [file_open_scan]
  rcases name_matches_false v name i h with h0 | h1
  · simp only [if_pos h0]
  · by_cases h0 : (sfn_at v.root_directory i).filename 0 = 0x00
        ∨ (sfn_at v.root_directory i).filename 0 = 0xe5
    · simp only [if_pos h0]
    · simp only [if_neg h0, if_neg h1]

/-- The directory loop of `file_open` in terms of the first matching slot. -/
theorem file_open_scan_eq (v : volume_t) (name : List Byte) (junk : Nat → Byte) (fuel : Nat)
    (errno : Int) (m i : Nat) :
    file_open_scan v name junk fuel errno m i
      = match (List.range' i m).find? (name_matches v name) with
        | none => some (none, errno)
        | some j =>
          if is_dir_or_label (sfn_at v.root_directory j) = true then some (none, EISDIR)
          else (reconstruct v (sfn_at v.root_directory j) junk fuel).map
            (fun f => (some f, errno)) := by
  induction m generalizing i with
  | zero => simp [file_open_scan]
  | succ m ih =>
    cases h : name_matches v name i with
    | true =>
      rw [file_open_scan_hit v name junk fuel errno m i h]
      simp [List.range', h]
    | false =>
      rw [file_open_scan_skip v name junk fuel errno m i h, ih (i + 1)]
      simp [List.range', h]

theorem memcpy_length (dst : List Byte) (d : Int) (src : List Byte) (s : Int) (n : Nat)
    (r : List Byte) (h : memcpy dst d src s n = some r) : r.length = dst.length := by
  unfold memcpy at h
  split_ifs at h with hc
  simp only [Option.some.injEq] at h
  rw [← h]
  simp only [List.length_append, List.length_take, List.length_drop]
  omega

theorem chain_step_length (v : volume_t) (index k : Nat) (data : List Byte)
    (r : Bool × Nat × Nat × List Byte) (h : chain_step v index k data = some r) :
    r.2.2.2.length = data.length := by
  unfold chain_step at h
  split at h
  · simp at h
  · split_ifs at h
    · split at h
      · simp at h
      · rename_i data1 hm
        simp only [Option.some.injEq] at h
        rw [← h]
        exact memcpy_length _ _ _ _ _ _ hm
    · simp only [Option.some.injEq] at h
      rw [← h]

theorem chain_loop_length (v : volume_t) (fuel index k : Nat) (data : List Byte)
    (r : Nat × Nat × List Byte) (h : chain_loop v fuel index k data = some r) :
    r.2.2.length = data.length := by
  induction fuel generalizing index k data with
  | zero => simp [chain_loop] at h
  | succ fuel ih =>
    rw [chain_loop] at h
    split at h
    · simp at h
    · rename_i next k1 data1 hs
      rw [ih _ _ _ h]
      exact chain_step_length _ _ _ _ _ hs
    · rename_i r1 hs
      simp only [Option.some.injEq] at h
      rw [← h]
      exact chain_step_length _ _ _ _ _ hs

/-- A stream built by `file_open` carries the slot as its SFN copy, a data
buffer of `size` bytes and the cursor 0. -/
theorem reconstruct_shape (v : volume_t) (pfile : SFN) (junk : Nat → Byte) (fuel : Nat)
    (f : file_t) (h : reconstruct v pfile junk fuel = some f) :
    f.handle = pfile ∧ f.current_byte = 0 ∧ f.data.length = pfile.size := by
  unfold reconstruct at h
  split_ifs at h with hc
  simp only at h
  split at h
  · simp at h
  · rename_i index1 k data hl
    have hlen := chain_loop_length _ _ _ _ _ _ hl
    simp only [malloc_length] at hlen
    split_ifs at h
    · split at h
      · simp at h
      · rename_i data1 hm
        simp only [Option.some.injEq] at h
        rw [← h]
        exact ⟨rfl, rfl, by rw [memcpy_length _ _ _ _ _ _ hm, hlen]⟩
    · simp only [Option.some.injEq] at h
      rw [← h]
      exact ⟨rfl, rfl, hlen⟩

/-- C10 (as amended): `file_open` is decided by the first slot, in slot order,
whose first byte is neither 0x00 nor 0xE5 and whose normalised 8.3 name equals
`name` as a C string.  When no slot matches it returns null and leaves errno
unchanged; when that slot has the DIRECTORY or VOLUME_LABEL attribute it
returns null with errno IS_DIRECTORY; in every other case it runs the
reconstruction of that slot and, provided the reconstruction completes
(cluster_bytes > 0, the chain walk stays inside the buffers and reaches an
end-of-chain entry), returns a stream whose SFN copy is that slot, with cursor
0 and a data buffer of `size` bytes. -/
theorem file_open_classification (v : volume_t) (name : List Byte) (junk : Nat → Byte)
    (fuel : Nat) (errno : Int) :
    file_open v name junk fuel errno
      = (match first_match v name with
        | none => some (none, errno)
        | some i =>
          if is_dir_or_label (sfn_at v.root_directory i) = true then some (none, EISDIR)
          else (reconstruct v (sfn_at v.root_directory i) junk fuel).map
            (fun f => (some f, errno)))
    ∧ ∀ i f, reconstruct v (sfn_at v.root_directory i) junk fuel = some f →
        f.handle = sfn_at v.root_directory i ∧ f.current_byte = 0
          ∧ f.data.length = (sfn_at v.root_directory i).size := by
  refine ⟨?_, fun i f h => reconstruct_shape v _ junk fuel f h⟩
  unfold file_open first_match
  rw [file_open_scan_eq, List.range_eq_range']

set_option maxRecDepth 100000 in
theorem file_open_classification_witness :
    first_match vol_A [0x41] = some 0
    ∧ is_dir_or_label (sfn_at vol_A.root_directory 0) = false
    ∧ reconstruct vol_A (sfn_at vol_A.root_directory 0) (fun _ => 0) 2 = some stream_abc
    ∧ file_open vol_A [0x41] (fun _ => 0) 2 0
      = (match first_match vol_A [0x41] with
        | none => some (none, 0)
        | some i =>
          if is_dir_or_label (sfn_at vol_A.root_directory i) = true then some (none, EISDIR)
          else (reconstruct vol_A (sfn_at vol_A.root_directory i) (fun _ => 0) 2).map
            (fun f => (some f, 0)))
    ∧ stream_abc.handle = sfn_at vol_A.root_directory 0 :=
  ⟨by decide, by decide, by decide, (file_open_classification vol_A [0x41] (fun _ => 0) 2 0).1,
    ((file_open_classification vol_A [0x41] (fun _ => 0) 2 0).2 0 stream_abc (by decide)).1⟩

/-- When the scanning loop stores an entry, it is the entry of a visible slot
at or after the cursor, and the new cursor is just past that slot. -/
theorem dir_scan_emitted (table : List Byte) (m cur : Nat) (ent : dir_entry_t)
    (h : (dir_scan table m cur).2.1 = some ent) :
    ∃ i, cur ≤ i ∧ i < cur + m ∧ visible table i = true
      ∧ ent = make_entry (sfn_at table i) ∧ (dir_scan table m cur).2.2 = i + 1 := by
  induction m generalizing cur with
  | zero => simp [dir_scan] at h
  | succ m ih =>
    cases hv : visible table cur with
    | true =>
      rw [dir_scan_emit table m cur hv] at h ⊢
      simp only [Option.some.injEq] at h
      exact ⟨cur, le_refl _, by omega, hv, h.symm, rfl⟩
    | false =>
      rw [dir_scan_skip table m cur hv] at h ⊢
      obtain ⟨i, a, b, c, d, e⟩ := ih (cur + 1) h
      exact ⟨i, by omega, by omega, c, d, e⟩

/-- The directory loop of `file_open` stops at the first matching slot. -/
theorem file_open_scan_first (v : volume_t) (name : List Byte) (junk : Nat → Byte) (fuel : Nat)
    (errno : Int) (m cur i : Nat) (h1 : cur ≤ i) (h2 : i < cur + m)
    (hm : name_matches v name i = true)
    (h : ∀ j, cur ≤ j → j < i → name_matches v name j = false) :
    file_open_scan v name junk fuel errno m cur
      = if is_dir_or_label (sfn_at v.root_directory i) = true then some (none, EISDIR)
        else (reconstruct v (sfn_at v.root_directory i) junk fuel).map (fun f => (some f, errno)) := by
  induction m generalizing cur with
  | zero => omega
  | succ m ih =>
    by_cases hc : cur = i
    · subst hc
      exact file_open_scan_hit v name junk fuel errno m cur hm
    · rw [file_open_scan_skip v name junk fuel errno m cur (h cur (by omega) (by omega))]
      exact ih (cur + 1) (by omega) (by omega) (fun j a b => h j (by omega) b)

/-- C8 (as amended): for every volume and every entry E that `dir_read` emits
over its root directory with is_directory == 0, if no earlier slot matches
E.name for `file_open` (first byte neither 0x00 nor 0xE5 and the same
normalised name as a C string) and the reconstruction of the emitted slot
completes, then `file_open(volume, E.name)` returns that stream, not null,
and the stream's size field equals E.size. -/
theorem dir_entry_opens (v : volume_t) (cur : Nat) (e0 errno : Int) (E : dir_entry_t)
    (junk : Nat → Byte) (fuel : Nat) (f : file_t)
    (hE : (dir_read (dir_t.mk v.root_directory v.boot_sector.root_dir_capacity cur) e0).2.1
      = some E)
    (hdir : E.is_directory = 0)
    (hfirst : ∀ j, j + 1 <
        (dir_read (dir_t.mk v.root_directory v.boot_sector.root_dir_capacity cur)
          e0).2.2.1.current_entry →
        name_matches v E.name j = false)
    (hrec : reconstruct v (sfn_at v.root_directory
        ((dir_read (dir_t.mk v.root_directory v.boot_sector.root_dir_capacity cur)
          e0).2.2.1.current_entry - 1)) junk fuel = some f) :
    file_open v E.name junk fuel errno = some (some f, errno) ∧ f.handle.size = E.size := by
  unfold dir_read at hE hfirst hrec
  simp only at hE hfirst hrec
  split_ifs at hE hfirst hrec with hc
  obtain ⟨i, a, b, hv, hent, hcur⟩ := dir_scan_emitted _ _ _ _ hE
  simp only [hcur, Nat.add_sub_cancel] at hfirst hrec
  have hi : i < v.boot_sector.root_dir_capacity := by omega
  obtain ⟨hv0, hv1⟩ := visible_true _ _ hv
  have hname : E.name = sfn_name (sfn_at v.root_directory i) := by rw [hent]; rfl
  have hm : name_matches v E.name i = true := by
    unfold name_matches
    rw [hname]
    simp only [Bool.and_eq_true, decide_eq_true_eq, ne_eq, and_true]
    tauto
  have hnd : is_dir_or_label (sfn_at v.root_directory i) = false := by
    unfold is_dir_or_label
    rw [hent] at hdir
    simp only [make_entry, attr_flag] at hdir
    simp only [Bool.or_eq_false_iff, decide_eq_false_iff_not]
    refine ⟨?_, hv1⟩
    intro hx
    rw [if_pos hx] at hdir
    exact absurd hdir (by decide)
  have hopen := file_open_scan_first v E.name junk fuel errno v.boot_sector.root_dir_capacity 0 i
    (Nat.zero_le _) (by omega) hm (fun j _ hj => hfirst j (by omega))
  unfold file_open
  rw [hopen, hnd, hrec]
  refine ⟨by simp, ?_⟩
  rw [(reconstruct_shape v _ junk fuel f hrec).1, hent]
  rfl

set_option maxRecDepth 100000 in
theorem dir_entry_opens_witness :
    file_open vol_A (make_entry (sfn_at vol_A.root_directory 0)).name (fun _ => 0) 2 0
        = some (some stream_abc, 0)
      ∧ stream_abc.handle.size = (make_entry (sfn_at vol_A.root_directory 0)).size :=
  dir_entry_opens vol_A 0 0 0 (make_entry (sfn_at vol_A.root_directory 0)) (fun _ => 0) 2
    stream_abc (by decide) (by decide)
    (fun j hj => absurd (show j + 1 < 1 from hj) (by omega)) (by decide)

set_option maxRecDepth 100000 in
/-- C8 fails as stated: on a volume whose root directory holds a volume label
reading A and then a regular file A, `dir_read` emits the entry of the file
(is_directory == 0, name A), and `file_open(volume, "A")` returns null with
errno IS_DIRECTORY, because the label is the first slot whose name matches. -/
theorem label_shadows_file :
    dir_iterate 3 (dir_t.mk vol_label_then_A.root_directory
        vol_label_then_A.boot_sector.root_dir_capacity 0) 0
      = some ([(make_entry (sfn_at vol_label_then_A.root_directory 1), 2)], -1)
    ∧ (make_entry (sfn_at vol_label_then_A.root_directory 1)).is_directory = 0
    ∧ (make_entry (sfn_at vol_label_then_A.root_directory 1)).name
        = [0x41, 0, 0, 0, 0, 0, 0, 0, 0, 0, 0, 0, 0]
    ∧ file_open vol_label_then_A (make_entry (sfn_at vol_label_then_A.root_directory 1)).name
        (fun _ => 0) 2 0 = some (none, EISDIR) := by
  decide

set_option maxRecDepth 100000 in
/-- C10 fails as stated: on a volume with sectors_per_cluster = 0 whose root
directory holds the regular file A, the first slot matching the name A is a
regular file, yet `file_open` returns no stream: it divides by
cluster_bytes = 0 when it computes the tail. -/
theorem file_open_divides_by_zero :
    vol_zero_cluster.cluster_bytes = 0
    ∧ first_match vol_zero_cluster [0x41] = some 0
    ∧ is_dir_or_label (sfn_at vol_zero_cluster.root_directory 0) = false
    ∧ file_open vol_zero_cluster [0x41] (fun _ => 0) 2 0 = none
    ∧ file_open vol_A [0x41] (fun _ => 0) 2 0 = some (some stream_abc, 0) := by
  decide

/-! ## `file_open`: the reconstruction -/

theorem toI32_of_range (x : Int) (h0 : 0 ≤ x) (h1 : x < 2147483648) : toI32 x = x := by
  unfold toI32
  omega

theorem dst_offset_eq (v : volume_t) (k : Nat) (h : k * v.cluster_bytes < 2147483648) :
    dst_offset v k = ((k * v.cluster_bytes : Nat) : Int) := by
  unfold dst_offset
  rw [← Nat.cast_mul]
  generalize k * v.cluster_bytes = t at h ⊢
  exact toI32_of_range _ (by omega) (by omega)

theorem src_offset_eq (v : volume_t) (c : Nat) (hc : 2 ≤ c) (hcb : 0 < v.cluster_bytes)
    (h : (c - 2) * v.cluster_bytes < 2147483648) :
    src_offset v c = (((c - 2) * v.cluster_bytes : Nat) : Int) := by
  unfold src_offset
  unfold volume_t.cluster_bytes at hcb h ⊢
  have hb : 0 < v.boot_sector.bytes_per_sector := Nat.pos_of_mul_pos_left hcb
  have e1 : ((c : Int) - 2) = ((c - 2 : Nat) : Int) := by omega
  have h1 : (c - 2) * v.boot_sector.sectors_per_cluster
      ≤ (c - 2) * v.boot_sector.sectors_per_cluster * v.boot_sector.bytes_per_sector :=
    Nat.le_mul_of_pos_right _ hb
  rw [← Nat.mul_assoc] at h ⊢
  rw [e1, ← Nat.cast_mul]
  generalize (c - 2) * v.boot_sector.sectors_per_cluster = t at h h1 ⊢
  rw [toI32_of_range (t : Int) (by omega) (by omega), ← Nat.cast_mul]
  generalize t * v.boot_sector.bytes_per_sector = u at h h1 ⊢
  exact toI32_of_range _ (by omega) (by omega)

theorem memcpy_eq (dst src : List Byte) (d s n : Nat) (hd : d + n ≤ dst.length)
    (hs : s + n ≤ src.length) :
    memcpy dst (d : Int) src (s : Int) n
      = some (dst.take d ++ (src.drop s).take n ++ dst.drop (d + n)) := by
  unfold memcpy
  rw [if_pos (by omega)]
  simp

/-- A cluster in range holds `cluster_bytes` bytes. -/
theorem cluster_length (v : volume_t) (c : Nat)
    (h : (c - 2) * v.cluster_bytes + v.cluster_bytes ≤ v.data_area.length) :
    (cluster v c).length = v.cluster_bytes := by
  unfold cluster
  rw [List.length_take, List.length_drop]
  omega

/-- One loop iteration on a cluster whose FAT entry is below 0xFFF8. -/
theorem chain_step_copy (v : volume_t) (c k next : Nat) (data : List Byte)
    (hf : fat_entry v.primary_fat c = some next) (hn : next < FAT_CHAIN_ENDING_VALUE)
    (hc : 2 ≤ c) (hcb : 0 < v.cluster_bytes)
    (hr : (c - 2) * v.cluster_bytes + v.cluster_bytes ≤ v.data_area.length)
    (hda : v.data_area.length < 2147483648)
    (hk : k * v.cluster_bytes + v.cluster_bytes ≤ data.length)
    (hk2 : k * v.cluster_bytes < 2147483648) :
    chain_step v c k data
      = some (true, next, k + 1,
          data.take (k * v.cluster_bytes) ++ cluster v c
            ++ data.drop (k * v.cluster_bytes + v.cluster_bytes)) := by
  unfold chain_step
  rw [hf]
  simp only [if_pos hn]
  rw [dst_offset_eq v k hk2, src_offset_eq v c hc hcb (by omega), memcpy_eq _ _ _ _ _ hk hr]
  rfl

/-- The loop test on a cluster whose FAT entry is an end-of-chain value. -/
theorem chain_step_end (v : volume_t) (c k x : Nat) (data : List Byte)
    (hf : fat_entry v.primary_fat c = some x) (hx : FAT_CHAIN_ENDING_VALUE ≤ x) :
    chain_step v c k data = some (false, c, k, data) := by
  unfold chain_step
  rw [hf]
  simp only [if_neg (by omega : ¬ x < FAT_CHAIN_ENDING_VALUE)]

theorem is_chain_nil (fat : List Byte) (c cn : Nat) (h : is_chain fat c [] cn = true) :
    c = cn ∧ ∃ x, fat_entry fat c = some x ∧ FAT_CHAIN_ENDING_VALUE ≤ x := by
  rw [is_chain] at h
  simp only [Bool.and_eq_true, decide_eq_true_eq] at h
  refine ⟨h.1, ?_⟩
  cases hf : fat_entry fat c with
  | none => rw [hf] at h; simp at h
  | some x => rw [hf] at h; exact ⟨x, rfl, by simpa using h.2⟩

theorem is_chain_cons (fat : List Byte) (c x : Nat) (xs : List Nat) (cn : Nat)
    (h : is_chain fat c (x :: xs) cn = true) :
    x = c ∧ ∃ next, fat_entry fat c = some next ∧ next < FAT_CHAIN_ENDING_VALUE
      ∧ is_chain fat next xs cn = true := by
  rw [is_chain] at h
  simp only [Bool.and_eq_true, decide_eq_true_eq] at h
  refine ⟨h.1, ?_⟩
  cases hf : fat_entry fat c with
  | none => rw [hf] at h; simp at h
  | some next =>
    rw [hf] at h
    simp only [Bool.and_eq_true, decide_eq_true_eq] at h
    exact ⟨next, rfl, h.2.1, h.2.2⟩

/-- The cluster loop along a chain that stays in range: it ends at the last
cluster of the chain after copying the clusters before it, in order, to
consecutive positions of the buffer. -/
theorem chain_loop_walk (v : volume_t) (cn : Nat) (hcb : 0 < v.cluster_bytes)
    (hda : v.data_area.length < 2147483648) (cs : List Nat) :
    ∀ (c k fuel : Nat) (data : List Byte),
      is_chain v.primary_fat c cs cn = true →
      (∀ x ∈ cs, 2 ≤ x ∧ (x - 2) * v.cluster_bytes + v.cluster_bytes ≤ v.data_area.length) →
      (k + cs.length) * v.cluster_bytes ≤ data.length →
      (k + cs.length) * v.cluster_bytes < 2147483648 →
      cs.length < fuel →
      chain_loop v fuel c k data
        = some (cn, k + cs.length,
            data.take (k * v.cluster_bytes) ++ (cs.map (cluster v)).flatten
              ++ data.drop ((k + cs.length) * v.cluster_bytes)) := by
  induction cs with
  | nil =>
    intro c k fuel data hch _ _ _ hfuel
    obtain ⟨hc, x, hf, hx⟩ := is_chain_nil _ _ _ hch
    obtain ⟨f, rfl⟩ : ∃ f, fuel = f + 1 := ⟨fuel - 1, by simp at hfuel; omega⟩
    rw [chain_loop, chain_step_end v c k x data hf hx]
    simp [hc]
  | cons x xs ih =>
    intro c k fuel data hch hr hlen hlt hfuel
    obtain ⟨hx, next, hf, hn, hrest⟩ := is_chain_cons _ _ _ _ _ hch
    obtain ⟨f, rfl⟩ : ∃ f, fuel = f + 1 := ⟨fuel - 1, by simp at hfuel; omega⟩
    subst hx
    obtain ⟨hx2, hxr⟩ := hr x (List.mem_cons_self _ _)
    simp only [List.length_cons] at hlen hlt hfuel ⊢
    have e1 : (k + (xs.length + 1)) * v.cluster_bytes
        = k * v.cluster_bytes + v.cluster_bytes + xs.length * v.cluster_bytes := by ring
    have e2 : (k + 1 + xs.length) * v.cluster_bytes
        = k * v.cluster_bytes + v.cluster_bytes + xs.length * v.cluster_bytes := by ring
    have e3 : (k + 1) * v.cluster_bytes = k * v.cluster_bytes + v.cluster_bytes := by ring
    rw [chain_loop, chain_step_copy v x k next data hf hn hx2 hcb hxr hda (by omega) (by omega)]
    simp only
    have hA : (data.take (k * v.cluster_bytes)).length = k * v.cluster_bytes := by
      rw [List.length_take]; omega
    have hB : (cluster v x).length = v.cluster_bytes := cluster_length v x hxr
    have hAB : (data.take (k * v.cluster_bytes) ++ cluster v x).length
        = (k + 1) * v.cluster_bytes := by
      rw [List.length_append, hA, hB, e3]
    rw [ih next (k + 1) f _ hrest (fun y hy => hr y (List.mem_cons_of_mem _ hy))
      (by simp only [List.length_append, List.length_take, List.length_drop, hB]; omega)
      (by omega) (by omega)]
    have t1 : (data.take (k * v.cluster_bytes) ++ cluster v x
          ++ data.drop (k * v.cluster_bytes + v.cluster_bytes)).take ((k + 1) * v.cluster_bytes)
        = data.take (k * v.cluster_bytes) ++ cluster v x := List.take_left' hAB
    have t2 : (data.take (k * v.cluster_bytes) ++ cluster v x
          ++ data.drop (k * v.cluster_bytes + v.cluster_bytes)).drop
            ((k + 1 + xs.length) * v.cluster_bytes)
        = data.drop ((k + (xs.length + 1)) * v.cluster_bytes) := by
      have : (k + 1 + xs.length) * v.cluster_bytes
          = (data.take (k * v.cluster_bytes) ++ cluster v x).length
            + xs.length * v.cluster_bytes := by rw [hAB]; ring
      rw [this, ← List.drop_drop, List.drop_left, List.drop_drop, e1]
    rw [t1, t2]
    simp only [List.map_cons, List.flatten_cons, List.append_assoc, Nat.add_assoc,
      Nat.add_comm 1 xs.length]

theorem is_chain_unique (fat : List Byte) (l1 : List Nat) :
    ∀ (c : Nat) (l2 : List Nat) (cn1 cn2 : Nat),
      is_chain fat c l1 cn1 = true → is_chain fat c l2 cn2 = true → l1 = l2 := by
  induction l1 with
  | nil =>
    intro c l2 cn1 cn2 h1 h2
    cases l2 with
    | nil => rfl
    | cons y ys =>
      obtain ⟨_, x, hf, hx⟩ := is_chain_nil _ _ _ h1
      obtain ⟨_, next, hf2, hn, _⟩ := is_chain_cons _ _ _ _ _ h2
      rw [hf] at hf2
      simp only [Option.some.injEq] at hf2
      omega
  | cons x xs ih =>
    intro c l2 cn1 cn2 h1 h2
    obtain ⟨hx, next, hf, hn, hrest⟩ := is_chain_cons _ _ _ _ _ h1
    cases l2 with
    | nil =>
      obtain ⟨_, y, hf2, hy⟩ := is_chain_nil _ _ _ h2
      rw [hf] at hf2
      simp only [Option.some.injEq] at hf2
      omega
    | cons y ys =>
      obtain ⟨hy, next2, hf2, _, hrest2⟩ := is_chain_cons _ _ _ _ _ h2
      rw [hf] at hf2
      simp only [Option.some.injEq] at hf2
      subst hf2
      rw [hx, hy, ih next ys cn1 cn2 hrest hrest2]

theorem is_chain_from_member (fat : List Byte) (cn : Nat) (cs : List Nat) :
    ∀ (c y : Nat), is_chain fat c cs cn = true → y ∈ cs ++ [cn] →
      ∃ zs, is_chain fat y zs cn = true ∧ zs.length ≤ cs.length := by
  induction cs with
  | nil =>
    intro c y h hy
    obtain ⟨hc, _⟩ := is_chain_nil _ _ _ h
    simp only [List.nil_append, List.mem_singleton] at hy
    subst hy
    subst hc
    exact ⟨[], h, le_refl _⟩
  | cons x xs ih =>
    intro c y h hy
    obtain ⟨hx, next, hf, hn, hrest⟩ := is_chain_cons _ _ _ _ _ h
    simp only [List.cons_append, List.mem_cons] at hy
    rcases hy with hy | hy
    · subst hy
      subst hx
      exact ⟨y :: xs, h, le_refl _⟩
    · obtain ⟨zs, hz, hl⟩ := ih next y hrest hy
      exact ⟨zs, hz, by simp only [List.length_cons]; omega⟩

/-- The clusters of a chain that reaches an end-of-chain entry are pairwise
distinct. -/
theorem is_chain_nodup (fat : List Byte) (cn : Nat) (cs : List Nat) :
    ∀ c : Nat, is_chain fat c cs cn = true → (cs ++ [cn]).Nodup := by
  induction cs with
  | nil => intro c _; simp
  | cons x xs ih =>
    intro c h
    obtain ⟨hx, next, hf, hn, hrest⟩ := is_chain_cons _ _ _ _ _ h
    simp only [List.cons_append, List.nodup_cons]
    refine ⟨?_, ih next hrest⟩
    intro hmem
    obtain ⟨zs, hz, hl⟩ := is_chain_from_member fat cn xs next x hrest hmem
    rw [hx] at hz
    have := is_chain_unique fat (x :: xs) c zs cn cn h hz
    rw [← this] at hl
    simp only [List.length_cons] at hl
    omega

/-- Pairwise distinct clusters that lie inside the data area take no more
room than the data area has. -/
theorem distinct_clusters_fit (cb L : Nat) (hcb : 0 < cb) (l : List Nat) (hnd : l.Nodup)
    (hr : ∀ x ∈ l, 2 ≤ x ∧ (x - 2) * cb + cb ≤ L) : l.length * cb ≤ L := by
  have hsub : l.toFinset ⊆ Finset.Ico 2 (2 + L / cb) := by
    intro x hx
    rw [List.mem_toFinset] at hx
    obtain ⟨h2, hxr⟩ := hr x hx
    rw [Finset.mem_Ico]
    refine ⟨h2, ?_⟩
    have h3 : (x - 2 + 1) * cb ≤ L := by rw [Nat.add_mul, Nat.one_mul]; exact hxr
    have h4 : x - 2 + 1 ≤ L / cb := (Nat.le_div_iff_mul_le hcb).mpr h3
    omega
  have hcard := Finset.card_le_card hsub
  rw [List.toFinset_card_of_nodup hnd, Nat.card_Ico, Nat.add_sub_cancel_left] at hcard
  exact (Nat.le_div_iff_mul_le hcb).mp hcard

theorem clusters_length (v : volume_t) (cs : List Nat)
    (hr : ∀ x ∈ cs, (x - 2) * v.cluster_bytes + v.cluster_bytes ≤ v.data_area.length) :
    ((cs.map (cluster v)).flatten).length = cs.length * v.cluster_bytes := by
  induction cs with
  | nil => simp
  | cons x xs ih =>
    simp only [List.map_cons, List.flatten_cons, List.length_append, List.length_cons]
    rw [ih (fun y hy => hr y (List.mem_cons_of_mem _ hy)),
      cluster_length v x (hr x (List.mem_cons_self _ _))]
    ring

theorem overwrite_tail (F M X : List Byte) (p T : Nat) (hF : F.length = p)
    (hM : M.length = p + T) :
    (F ++ M.drop p).take p ++ X ++ (F ++ M.drop p).drop (p + T) = F ++ X := by
  rw [List.take_left' hF, ← List.drop_drop, List.drop_left' hF, List.drop_drop,
    List.drop_of_length_le (by omega), List.append_nil]

/-- The stream `file_open` builds for a regular file whose chain stays in
range, ends at an end-of-chain entry and has the length the size field calls
for, when the tail fits 16 bits. -/
theorem reconstruct_of_chain (v : volume_t) (pfile : SFN) (junk : Nat → Byte) (fuel : Nat)
    (cs : List Nat) (cn : Nat) (hcb : 0 < v.cluster_bytes)
    (hda : v.data_area.length < 2147483648)
    (hchain : is_chain v.primary_fat pfile.low_order_address_of_first_cluster cs cn = true)
    (hrange : ∀ x ∈ cs ++ [cn],
      2 ≤ x ∧ (x - 2) * v.cluster_bytes + v.cluster_bytes ≤ v.data_area.length)
    (hsize : pfile.size = cs.length * v.cluster_bytes + pfile.size % v.cluster_bytes)
    (ht0 : 0 < pfile.size % v.cluster_bytes) (ht1 : pfile.size % v.cluster_bytes < 65536)
    (hfuel : cs.length < fuel) :
    reconstruct v pfile junk fuel
      = some (file_t.mk pfile
          ((cs.map (cluster v)).flatten ++ (cluster v cn).take (pfile.size % v.cluster_bytes))
          0) := by
  have hfit := distinct_clusters_fit v.cluster_bytes v.data_area.length hcb (cs ++ [cn])
    (is_chain_nodup _ cn cs _ hchain) hrange
  simp only [List.length_append, List.length_singleton] at hfit
  have e1 : (cs.length + 1) * v.cluster_bytes = cs.length * v.cluster_bytes + v.cluster_bytes := by
    ring
  have htlt : pfile.size % v.cluster_bytes < v.cluster_bytes := Nat.mod_lt _ hcb
  obtain ⟨hcn2, hcnr⟩ := hrange cn (by simp)
  have hF := clusters_length v cs (fun x hx => (hrange x (by simp [hx])).2)
  have hwalk := chain_loop_walk v cn hcb hda cs pfile.low_order_address_of_first_cluster 0 fuel
    (malloc junk pfile.size) hchain (fun x hx => hrange x (by simp [hx]))
    (by rw [malloc_length, Nat.zero_add]; omega) (by rw [Nat.zero_add]; omega) hfuel
  simp only [Nat.zero_mul, List.take_zero, List.nil_append, Nat.zero_add] at hwalk
  unfold reconstruct
  rw [if_neg (by omega)]
  simp only [Nat.mod_eq_of_lt ht1, hwalk, if_pos ht0]
  rw [dst_offset_eq v _ (by omega), src_offset_eq v cn hcn2 hcb (by omega),
    memcpy_eq _ _ _ _ _ (by
      rw [List.length_append, List.length_drop, malloc_length, hF]
      omega) (by omega)]
  simp only [Option.some.injEq, file_t.mk.injEq, true_and, and_true]
  rw [overwrite_tail _ _ _ _ _ hF (by rw [malloc_length]; exact hsize)]
  unfold cluster
  rw [List.take_take, Nat.min_eq_left (by omega)]


/-- C1 (as amended): for every volume with cluster_bytes > 0 (and a data area
below 2^31 bytes, as `fat_open` allocates it) and every regular file entry
matched by `file_open` whose chain c0 = low_order_first_cluster, c1 = FAT[c0],
..., cn lies inside the FAT and the data area, reaches an end-of-chain value
at cn, and whose size = n * cluster_bytes + tail with tail = size mod
cluster_bytes, 0 < tail < 65536, `file_open` returns a stream whose data
buffer has exactly `size` bytes and equals the concatenation of the full
clusters c0..c(n-1) followed by the first `tail` bytes of cluster cn; its
current_byte is 0 and its SFN copy is the matched slot. -/
theorem file_open_reconstructs (v : volume_t) (name : List Byte) (junk : Nat → Byte)
    (fuel : Nat) (errno : Int) (i : Nat) (cs : List Nat) (cn : Nat)
    (hcb : 0 < v.cluster_bytes)
    (hda : v.data_area.length < 2147483648)
    (hmatch : first_match v name = some i)
    (hreg : is_dir_or_label (sfn_at v.root_directory i) = false)
    (hchain : is_chain v.primary_fat
      (sfn_at v.root_directory i).low_order_address_of_first_cluster cs cn = true)
    (hrange : ∀ x ∈ cs ++ [cn],
      2 ≤ x ∧ (x - 2) * v.cluster_bytes + v.cluster_bytes ≤ v.data_area.length)
    (hsize : (sfn_at v.root_directory i).size
      = cs.length * v.cluster_bytes + (sfn_at v.root_directory i).size % v.cluster_bytes)
    (ht0 : 0 < (sfn_at v.root_directory i).size % v.cluster_bytes)
    (ht1 : (sfn_at v.root_directory i).size % v.cluster_bytes < 65536)
    (hfuel : cs.length < fuel) :
    ∃ f, file_open v name junk fuel errno = some (some f, errno)
      ∧ f.data.length = (sfn_at v.root_directory i).size
      ∧ f.data = (cs.map (cluster v)).flatten
          ++ (cluster v cn).take ((sfn_at v.root_directory i).size % v.cluster_bytes)
      ∧ f.current_byte = 0
      ∧ f.handle = sfn_at v.root_directory i := by
  have hrec := reconstruct_of_chain v (sfn_at v.root_directory i) junk fuel cs cn hcb hda hchain
    hrange hsize ht0 ht1 hfuel
  refine ⟨_, ?_, (reconstruct_shape v _ junk fuel _ hrec).2.2, rfl, rfl, rfl⟩
  unfold file_open
  unfold first_match at hmatch
  rw [file_open_scan_eq, ← List.range_eq_range', hmatch]
  simp only [hreg, hrec, Bool.false_eq_true, if_false, Option.map_some']

set_option maxRecDepth 100000 in
theorem file_open_reconstructs_witness :
    ∃ f, file_open vol_B [0x42] (fun _ => 0) 2 0 = some (some f, 0)
      ∧ f.data.length = (sfn_at vol_B.root_directory 0).size
      ∧ f.data = ([2].map (cluster vol_B)).flatten
          ++ (cluster vol_B 3).take ((sfn_at vol_B.root_directory 0).size % vol_B.cluster_bytes)
      ∧ f.current_byte = 0
      ∧ f.handle = sfn_at vol_B.root_directory 0 :=
  file_open_reconstructs vol_B [0x42] (fun _ => 0) 2 0 0 [2] 3 (by decide) (by decide) (by decide)
    (by decide) (by decide) (by decide) (by decide) (by decide) (by decide) (by decide)

set_option maxRecDepth 100000 in
theorem vol_B_example :
    (sfn_at vol_B.root_directory 0).size = 515 ∧ vol_B.cluster_bytes = 512
    ∧ ([2].map (cluster vol_B)).flatten
          ++ (cluster vol_B 3).take ((sfn_at vol_B.root_directory 0).size % vol_B.cluster_bytes)
      = List.replicate 512 0x61 ++ [0x62, 0x63, 0x64] := by
  decide

theorem malloc_head (junk : Nat → Byte) (n : Nat) :
    (malloc junk (n + 1)).head? = some (junk 0) := by
  simp [malloc, List.range_succ_eq_map]

theorem length_data_big : data_big.length = 130560 := by
  unfold data_big
  exact List.length_replicate _ _

theorem cluster_vol_big : (cluster vol_big 2).take 65536 = List.replicate 65536 1 := by
  have h1 : vol_big.data_area = data_big := rfl
  have h2 : vol_big.cluster_bytes = 130560 := by decide
  unfold cluster
  rw [h1, h2]
  unfold data_big
  rw [List.drop_replicate, List.take_replicate, List.take_replicate]
  have h3 : min 65536 (min 130560 (130560 - (2 - 2) * 130560)) = 65536 := by decide
  rw [h3]

theorem reconstruct_vol_big :
    reconstruct vol_big (sfn_at vol_big.root_directory 0) (fun _ => 0) 2
      = some (file_t.mk (sfn_at vol_big.root_directory 0) (malloc (fun _ => 0) 65536) 0) := by
  have hcb : vol_big.cluster_bytes = 130560 := by decide
  have hsz : (sfn_at vol_big.root_directory 0).size = 65536 := by decide
  have hcl : (sfn_at vol_big.root_directory 0).low_order_address_of_first_cluster = 2 := by
    decide
  have hloop : ∀ data, chain_loop vol_big 2 2 0 data = some (2, 0, data) := by
    intro data
    show chain_loop vol_big (1 + 1) 2 0 data = some (2, 0, data)
    rw [chain_loop, chain_step_end vol_big 2 0 65535 data (by decide) (by decide)]
  unfold reconstruct
  rw [hcb, hsz, hcl, if_neg (by decide)]
  simp only [hloop]
  rw [if_neg (by decide)]

/-- C1 fails as stated: on a volume with 255 sectors of 512 bytes per cluster
(cluster_bytes = 130560) whose file A has size 65536 and the one-cluster chain
2, the tail is 65536 > 0 and size = 0 * cluster_bytes + tail, yet `file_open`
keeps the tail in a uint16_t (65536 becomes 0) and copies nothing: the data
buffer keeps the bytes `malloc` left in it (here zeros), not the first 65536
bytes of cluster 2 (here ones). -/
theorem file_open_drops_big_tail :
    vol_big.cluster_bytes = 130560
    ∧ vol_big.data_area.length = 130560
    ∧ first_match vol_big [0x41] = some 0
    ∧ is_dir_or_label (sfn_at vol_big.root_directory 0) = false
    ∧ is_chain vol_big.primary_fat
        (sfn_at vol_big.root_directory 0).low_order_address_of_first_cluster [] 2 = true
    ∧ (sfn_at vol_big.root_directory 0).size = 65536
    ∧ (sfn_at vol_big.root_directory 0).size % vol_big.cluster_bytes = 65536
    ∧ file_open vol_big [0x41] (fun _ => 0) 2 0
        = some (some (file_t.mk (sfn_at vol_big.root_directory 0) (malloc (fun _ => 0) 65536) 0),
            0)
    ∧ malloc (fun _ => 0) 65536 ≠ (cluster vol_big 2).take 65536 := by
  refine ⟨by decide, length_data_big, by decide, by decide, by decide, by decide, by decide,
    ?_, ?_⟩
  · have hm : first_match vol_big [0x41] = some 0 := by decide
    have hr : is_dir_or_label (sfn_at vol_big.root_directory 0) = false := by decide
    unfold file_open
    unfold first_match at hm
    rw [file_open_scan_eq, ← List.range_eq_range', hm]
    simp only [hr, reconstruct_vol_big, Bool.false_eq_true, if_false, Option.map_some']
  · intro h
    have h2 := congrArg List.head? h
    rw [cluster_vol_big, malloc_head (fun _ => 0) 65535] at h2
    simp at h2

/-! ## Streams: idempotence, refinement, seeking to the start -/

/-- No `file_seek` call changes the data buffer or the SFN copy. -/
theorem file_seek_buffers (s : file_t) (offset whence errno : Int) :
    (file_seek s offset whence errno).2.1.data = s.data
      ∧ (file_seek s offset whence errno).2.1.handle = s.handle := by
  unfold file_seek
  split_ifs <;> simp

theorem file_seek_SET (s : file_t) (offset errno : Int) :
    file_seek s offset SEEK_SET errno =
      if offset < 0 then (-1, s, EINVAL)
      else if toU32 offset > s.handle.size then (-1, s, ENXIO)
      else (offset, file_t.mk s.handle s.data offset, errno) := by
  unfold file_seek
  simp [SEEK_SET, SEEK_CUR, SEEK_END]

theorem file_seek_CUR (s : file_t) (offset errno : Int) :
    file_seek s offset SEEK_CUR errno =
      if toI32 (offset + s.current_byte) < 0
          ∨ toU32 (toI32 (offset + s.current_byte)) > s.handle.size then (-1, s, ENXIO)
      else (toI32 (s.current_byte + offset),
        file_t.mk s.handle s.data (toI32 (s.current_byte + offset)), errno) := by
  unfold file_seek
  simp [SEEK_SET, SEEK_CUR, SEEK_END]

theorem file_seek_END (s : file_t) (offset errno : Int) :
    file_seek s offset SEEK_END errno =
      if offset > 0 then (-1, s, EINVAL)
      else if toU32 (toI32 (-offset)) > s.handle.size then (-1, s, ENXIO)
      else (toI32 (toU32 (s.handle.size + toU32 offset)),
        file_t.mk s.handle s.data (toI32 (toU32 (s.handle.size + toU32 offset))), errno) := by
  unfold file_seek
  simp [SEEK_SET, SEEK_CUR, SEEK_END]

/-- C17 (as amended): for every stream and every 32-bit offset, when whence is
SET or END (with size below 2^31 for END), or whence is CUR and the offset is
0, and `file_seek` succeeds, a second call with the same arguments also
succeeds, returns the same position and leaves current_byte equal to it, and
that position lies in `[0, size]`. -/
theorem file_seek_idempotent (s : file_t) (offset whence e1 e2 : Int)
    (ho0 : -2147483648 ≤ offset) (ho1 : offset < 2147483648)
    (hp0 : -2147483648 ≤ s.current_byte) (hp1 : s.current_byte < 2147483648)
    (hw : whence = SEEK_SET ∨ (whence = SEEK_END ∧ s.handle.size < 2147483648)
      ∨ (whence = SEEK_CUR ∧ offset = 0))
    (hok : (file_seek s offset whence e1).1 ≠ -1) :
    (file_seek (file_seek s offset whence e1).2.1 offset whence e2).1
        = (file_seek s offset whence e1).1
      ∧ (file_seek (file_seek s offset whence e1).2.1 offset whence e2).2.1.current_byte
        = (file_seek s offset whence e1).1
      ∧ (file_seek (file_seek s offset whence e1).2.1 offset whence e2).1 ≠ -1
      ∧ 0 ≤ (file_seek s offset whence e1).1
      ∧ (file_seek s offset whence e1).1 ≤ s.handle.size := by
  rcases hw with hw | ⟨hw, hsz⟩ | ⟨hw, hz⟩
  · subst hw
    by_cases h1 : offset < 0
    · exact absurd (by rw [file_seek_SET]; simp [h1]) hok
    by_cases h2 : toU32 offset > s.handle.size
    · exact absurd (by rw [file_seek_SET]; simp [h1, h2]) hok
    have hf : file_seek s offset SEEK_SET e1
        = (offset, file_t.mk s.handle s.data offset, e1) := by
      rw [file_seek_SET]
      simp only [h1, h2, if_false]
    rw [hf, file_seek_SET]
    simp only [h1, h2, if_false]
    unfold toU32 at h2
    refine ⟨trivial, trivial, ?_, ?_, ?_⟩ <;> omega
  · subst hw
    by_cases h1 : offset > 0
    · exact absurd (by rw [file_seek_END]; simp [h1]) hok
    by_cases h2 : toU32 (toI32 (-offset)) > s.handle.size
    · exact absurd (by rw [file_seek_END]; simp [h1, h2]) hok
    have hv : toI32 (toU32 (s.handle.size + toU32 offset)) = s.handle.size + offset := by
      unfold toU32 toI32 at h2 ⊢
      omega
    have hf : file_seek s offset SEEK_END e1
        = (s.handle.size + offset, file_t.mk s.handle s.data (s.handle.size + offset), e1) := by
      rw [file_seek_END]
      simp only [h1, h2, if_false, hv]
    rw [hf, file_seek_END]
    simp only [h1, h2, if_false, hv]
    unfold toU32 toI32 at h2
    refine ⟨trivial, trivial, ?_, ?_, ?_⟩ <;> omega
  · subst hw
    subst hz
    have hv : toI32 (s.current_byte + 0) = s.current_byte := by
      unfold toI32
      omega
    have hv2 : toI32 (0 + s.current_byte) = s.current_byte := by
      unfold toI32
      omega
    by_cases h1 : s.current_byte < 0 ∨ toU32 s.current_byte > s.handle.size
    · exact absurd (by rw [file_seek_CUR, hv2]; simp only [h1, if_true]) hok
    have hf : file_seek s 0 SEEK_CUR e1
        = (s.current_byte, file_t.mk s.handle s.data s.current_byte, e1) := by
      rw [file_seek_CUR, hv2, hv]
      simp only [h1, if_false]
    rw [hf, file_seek_CUR]
    simp only [hv, hv2, h1, if_false]
    unfold toU32 at h1
    refine ⟨trivial, trivial, ?_, ?_, ?_⟩ <;> omega

theorem file_seek_idempotent_witness :
    (file_seek (file_seek stream_hello (-6) SEEK_END 0).2.1 (-6) SEEK_END 0).1
        = (file_seek stream_hello (-6) SEEK_END 0).1
      ∧ (file_seek (file_seek stream_hello (-6) SEEK_END 0).2.1 (-6) SEEK_END 0).2.1.current_byte
        = (file_seek stream_hello (-6) SEEK_END 0).1
      ∧ (file_seek (file_seek stream_hello (-6) SEEK_END 0).2.1 (-6) SEEK_END 0).1 ≠ -1
      ∧ 0 ≤ (file_seek stream_hello (-6) SEEK_END 0).1
      ∧ (file_seek stream_hello (-6) SEEK_END 0).1 ≤ stream_hello.handle.size :=
  file_seek_idempotent stream_hello (-6) SEEK_END 0 0 (by decide) (by decide) (by decide)
    (by decide) (Or.inr (Or.inl ⟨rfl, by decide⟩)) (by decide)

/-- C17 fails as stated: on the 13-byte stream with the cursor at 0,
`file_seek(stream, 1, SEEK_CUR)` succeeds and returns 1; the second call with
the same arguments returns 2 and leaves current_byte at 2. -/
theorem file_seek_cur_moves_twice :
    (file_seek stream_hello 1 SEEK_CUR 0).1 = 1
    ∧ (file_seek (file_seek stream_hello 1 SEEK_CUR 0).2.1 1 SEEK_CUR 0).1 = 2
    ∧ (file_seek (file_seek stream_hello 1 SEEK_CUR 0).2.1 1 SEEK_CUR 0).2.1.current_byte = 2 := by
  decide

theorem length_data_2g5 : data_2g5.length = 2147483653 := by
  unfold data_2g5
  exact malloc_length _ _

/-- C18 (as amended): for every stream whose size is below 2^31, whose buffer
holds `size` bytes and whose cursor `p` is in `[0, size]`, and every
element_size and n_elements with `size - p ≤ 65535` and
`element_size * n_elements ≤ 65535`, `file_read` returns the same count and
the same bytes as the fread-style reference and leaves the same cursor; errno
is unchanged, so the internal `file_seek` does not fail, and the call does not
divide by zero. -/
theorem file_read_refines (s : file_t) (element_size n_elements : Nat) (errno : Int)
    (hp0 : 0 ≤ s.current_byte) (hp1 : s.current_byte ≤ s.handle.size)
    (hlen : s.data.length = s.handle.size) (hsz : s.handle.size < 2147483648)
    (hrem : s.handle.size - s.current_byte ≤ 65535)
    (hreq : element_size * n_elements ≤ 65535) :
    file_read s element_size n_elements errno
      = some ((file_read_ref s element_size n_elements).1,
          (file_read_ref s element_size n_elements).2.1,
          file_t.mk s.handle s.data (file_read_ref s element_size n_elements).2.2, errno) := by
  obtain ⟨h, d, p⟩ := s
  simp only at hp0 hp1 hlen hsz hrem
  obtain ⟨pn, rfl⟩ := Int.eq_ofNat_of_zero_le hp0
  have hbl : toU16 (toU32 ((h.size : Int) - toU32 (pn : Int))) = ((h.size - pn : Nat) : Int) := by
    unfold toU16 toU32
    omega
  have hq : toU16 ((element_size : Int) * (n_elements : Int))
      = ((element_size * n_elements : Nat) : Int) := by
    rw [← Nat.cast_mul]
    generalize element_size * n_elements = q at hreq
    unfold toU16
    omega
  unfold file_read file_read_ref
  simp only [hbl, hq, Int.toNat_ofNat]
  by_cases hr : h.size - pn = 0
  · simp [hr]
  have hr' : ¬ (((h.size - pn : Nat) : Int) = 0) := by omega
  simp only [hr, hr', if_false]
  by_cases hle : element_size * n_elements ≤ h.size - pn
  · have hle' : ((element_size * n_elements : Nat) : Int) ≤ ((h.size - pn : Nat) : Int) := by
      exact_mod_cast hle
    have hb : read_bytes d (pn : Int) (element_size * n_elements)
        = some ((d.drop pn).take (element_size * n_elements)) := by
      unfold read_bytes
      rw [if_pos ⟨by omega, by omega⟩]
      simp
    simp only [hle, hle', if_true, hb]
    rw [file_seek_CUR]
    have hv : toI32 (((element_size * n_elements : Nat) : Int) + (pn : Int))
        = (pn : Int) + ((element_size * n_elements : Nat) : Int) := by
      unfold toI32
      omega
    have hv2 : toI32 ((pn : Int) + ((element_size * n_elements : Nat) : Int))
        = (pn : Int) + ((element_size * n_elements : Nat) : Int) := by
      unfold toI32
      omega
    simp only [hv, hv2]
    rw [if_neg (by unfold toU32; omega)]
  · have hle' : ¬ ((element_size * n_elements : Nat) : Int) ≤ ((h.size - pn : Nat) : Int) := by
      intro hc
      exact hle (by exact_mod_cast hc)
    have hb : read_bytes d (pn : Int) (h.size - pn)
        = some ((d.drop pn).take (h.size - pn)) := by
      unfold read_bytes
      rw [if_pos ⟨by omega, by omega⟩]
      simp
    have hes : element_size ≠ 0 := by
      intro hc
      rw [hc] at hle
      simp at hle
    simp only [hle, hle', if_false, hb, hes]
    rw [file_seek_CUR]
    have hv : toI32 (((h.size - pn : Nat) : Int) + (pn : Int)) = (h.size : Int) := by
      unfold toI32
      omega
    have hv2 : toI32 ((pn : Int) + ((h.size - pn : Nat) : Int)) = (h.size : Int) := by
      unfold toI32
      omega
    simp only [hv, hv2]
    rw [if_neg (by unfold toU32; omega)]

theorem file_read_refines_witness :
    file_read stream_hello 2 3 0
      = some ((file_read_ref stream_hello 2 3).1, (file_read_ref stream_hello 2 3).2.1,
          file_t.mk stream_hello.handle stream_hello.data (file_read_ref stream_hello 2 3).2.2, 0) :=
  file_read_refines stream_hello 2 3 0 (by decide) (by decide) (by decide) (by decide)
    (by decide) (by decide)

/-- With 11 bytes remaining before offset 2^31 + 5, the cursor update inside
`file_read` wraps to a negative `int32_t` and is rejected. -/
theorem file_read_past_2g (s : file_t) (errno : Int)
    (hs : s.handle.size = 2147483653) (hp : s.current_byte = 2147483642)
    (hlen : s.data.length = 2147483653) :
    (file_read s 1 11 errno).map (fun r => (r.1, r.2.2.1.current_byte, r.2.2.2))
      = some (11, 2147483642, ENXIO) := by
  obtain ⟨h, d, p⟩ := s
  simp only at hs hp hlen
  subst hp
  have h1 : toU16 (toU32 ((h.size : Int) - toU32 2147483642)) = 11 := by
    rw [hs]
    decide
  have h3 : toU16 (((1 : Nat) : Int) * ((11 : Nat) : Int)) = 11 := by decide
  have hb : read_bytes d 2147483642 11 = some ((d.drop 2147483642).take 11) := by
    unfold read_bytes
    rw [if_pos ⟨by omega, by omega⟩]
    rfl
  have hk : file_seek (file_t.mk h d 2147483642) 11 SEEK_CUR errno
      = (-1, file_t.mk h d 2147483642, ENXIO) := by
    rw [file_seek_CUR]
    exact if_pos (Or.inl (by show toI32 (11 + 2147483642) < 0; decide))
  have h11 : (11 : Int).toNat = 11 := rfl
  unfold file_read
  simp only [h1, h3, h11, hb, hk]
  rfl

/-- C18 fails as stated: on a stream of 2^31 + 5 bytes with the cursor at
2^31 - 6 (11 bytes remaining), `file_read(ptr, 1, 11, stream)` returns 11 but
its internal `file_seek` fails, so the cursor stays at 2^31 - 6 and errno
becomes ENXIO, while the reference leaves the cursor at 2^31 + 5. -/
theorem file_read_seek_fails_past_2g :
    stream_2g5.handle.size = 2147483653 ∧ stream_2g5.data.length = 2147483653
    ∧ stream_2g5.current_byte = 2147483642
    ∧ (file_read stream_2g5 1 11 0).map (fun r => (r.1, r.2.2.1.current_byte, r.2.2.2))
        = some (11, 2147483642, ENXIO)
    ∧ (file_read_ref stream_2g5 1 11).1 = 11
    ∧ (file_read_ref stream_2g5 1 11).2.2 = 2147483653 :=
  ⟨by decide, length_data_2g5, rfl,
    file_read_past_2g stream_2g5 0 (by decide) rfl length_data_2g5, by decide, by decide⟩

/-! ## `file_open`: the buffer in general, whole-cluster files, writes and bounds -/

theorem overwrite_mid (F M X : List Byte) (p T : Nat) (hF : F.length = p) :
    (F ++ M.drop p).take p ++ X ++ (F ++ M.drop p).drop (p + T) = F ++ X ++ M.drop (p + T) := by
  rw [List.take_left' hF, ← List.drop_drop, List.drop_left' hF, List.drop_drop]

/-- The stream `file_open` builds for a regular file whose chain stays in
range and ends at an end-of-chain entry, when the clusters before the last and
the 16-bit tail fit the size field: the clusters before the last, the tail
bytes of the last cluster (none when the 16-bit tail is 0), then whatever
`malloc` left in the rest of the buffer. -/
theorem reconstruct_general (v : volume_t) (pfile : SFN) (junk : Nat → Byte) (fuel : Nat)
    (cs : List Nat) (cn : Nat) (hcb : 0 < v.cluster_bytes)
    (hda : v.data_area.length < 2147483648)
    (hchain : is_chain v.primary_fat pfile.low_order_address_of_first_cluster cs cn = true)
    (hrange : ∀ x ∈ cs ++ [cn],
      2 ≤ x ∧ (x - 2) * v.cluster_bytes + v.cluster_bytes ≤ v.data_area.length)
    (hroom : cs.length * v.cluster_bytes + pfile.size % v.cluster_bytes % 65536 ≤ pfile.size)
    (hfuel : cs.length < fuel) :
    reconstruct v pfile junk fuel
      = some (file_t.mk pfile
          ((cs.map (cluster v)).flatten
            ++ (cluster v cn).take (pfile.size % v.cluster_bytes % 65536)
            ++ (malloc junk pfile.size).drop
                (cs.length * v.cluster_bytes + pfile.size % v.cluster_bytes % 65536))
          0) := by
  have hfit := distinct_clusters_fit v.cluster_bytes v.data_area.length hcb (cs ++ [cn])
    (is_chain_nodup _ cn cs _ hchain) hrange
  simp only [List.length_append, List.length_singleton] at hfit
  have e1 : (cs.length + 1) * v.cluster_bytes = cs.length * v.cluster_bytes + v.cluster_bytes := by
    ring
  have htlt : pfile.size % v.cluster_bytes < v.cluster_bytes := Nat.mod_lt _ hcb
  have ht16 : pfile.size % v.cluster_bytes % 65536 ≤ pfile.size % v.cluster_bytes :=
    Nat.mod_le _ _
  obtain ⟨hcn2, hcnr⟩ := hrange cn (by simp)
  have hF := clusters_length v cs (fun x hx => (hrange x (by simp [hx])).2)
  have hwalk := chain_loop_walk v cn hcb hda cs pfile.low_order_address_of_first_cluster 0 fuel
    (malloc junk pfile.size) hchain (fun x hx => hrange x (by simp [hx]))
    (by rw [malloc_length, Nat.zero_add]; omega) (by rw [Nat.zero_add]; omega) hfuel
  simp only [Nat.zero_mul, List.take_zero, List.nil_append, Nat.zero_add] at hwalk
  unfold reconstruct
  rw [if_neg (by omega)]
  simp only [hwalk]
  by_cases ht0 : pfile.size % v.cluster_bytes % 65536 > 0
  · rw [if_pos ht0]
    rw [dst_offset_eq v _ (by omega), src_offset_eq v cn hcn2 hcb (by omega),
      memcpy_eq _ _ _ _ _ (by
        rw [List.length_append, List.length_drop, malloc_length, hF]
        omega) (by omega)]
    simp only [Option.some.injEq, file_t.mk.injEq, true_and, and_true]
    rw [overwrite_mid _ _ _ _ _ hF]
    unfold cluster
    rw [List.take_take, Nat.min_eq_left (by omega)]
  · rw [if_neg ht0]
    have hz : pfile.size % v.cluster_bytes % 65536 = 0 := by omega
    rw [hz]
    simp

/-- The result of `file_open` when the first slot that matches the name is a
regular file: the stream `reconstruct` builds for that slot. -/
theorem file_open_of_match (v : volume_t) (name : List Byte) (junk : Nat → Byte) (fuel : Nat)
    (errno : Int) (i : Nat) (hmatch : first_match v name = some i)
    (hreg : is_dir_or_label (sfn_at v.root_directory i) = false) :
    file_open v name junk fuel errno
      = (reconstruct v (sfn_at v.root_directory i) junk fuel).map (fun f => (some f, errno)) := by
  unfold file_open
  unfold first_match at hmatch
  rw [file_open_scan_eq, ← List.range_eq_range', hmatch]
  simp only [hreg, Bool.false_eq_true, if_false]

set_option maxRecDepth 100000 in
/-- The stream `file_open` builds for the file C of `vol_C`: cluster 2, then
the 512 bytes `malloc` left in the second half of the buffer. -/
theorem file_open_vol_C (junk : Nat → Byte) :
    file_open vol_C [0x43] junk 3 0
      = some (some (file_t.mk (sfn_at vol_C.root_directory 0)
          (cluster vol_C 2 ++ (malloc junk 1024).drop 512) 0), 0) := by
  have hrec := reconstruct_general vol_C (sfn_at vol_C.root_directory 0) junk 3 [2] 3
    (by decide) (by decide) (by decide) (by decide) (by decide) (by decide)
  have hsz : (sfn_at vol_C.root_directory 0).size = 1024 := by decide
  have hcb : vol_C.cluster_bytes = 512 := by decide
  rw [file_open_of_match vol_C [0x43] junk 3 0 0 (by decide) (by decide), hrec, hsz, hcb]
  simp

set_option maxRecDepth 100000 in
/-- C11: on a volume with 512-byte clusters whose file C has size 1024 =
2 × cluster_bytes and the two-cluster chain 2, 3, `file_open` copies cluster 2
only: the tail is 0, so no copy follows the loop, and bytes 512..1023 of the
buffer keep what `malloc` left there.  With zeros from `malloc`, byte 511 is
the last byte of cluster 2 (0x61) but byte 512 is 0, while the first byte of
cluster 3 is 0x62. -/
theorem file_open_drops_last_cluster :
    vol_C.cluster_bytes = 512
    ∧ first_match vol_C [0x43] = some 0
    ∧ is_dir_or_label (sfn_at vol_C.root_directory 0) = false
    ∧ (sfn_at vol_C.root_directory 0).size = 1024
    ∧ is_chain vol_C.primary_fat
        (sfn_at vol_C.root_directory 0).low_order_address_of_first_cluster [2] 3 = true
    ∧ (∀ junk : Nat → Byte, file_open vol_C [0x43] junk 3 0
        = some (some (file_t.mk (sfn_at vol_C.root_directory 0)
            (cluster vol_C 2 ++ (malloc junk 1024).drop 512) 0), 0))
    ∧ (cluster vol_C 2 ++ (malloc (fun _ => 0) 1024).drop 512).getD 511 0 = 0x61
    ∧ (cluster vol_C 2).getD 511 0 = 0x61
    ∧ (cluster vol_C 2 ++ (malloc (fun _ => 0) 1024).drop 512).getD 512 0 = 0
    ∧ (cluster vol_C 3).getD 0 0 = 0x62 := by
  exact ⟨by decide, by decide, by decide, by decide, by decide, file_open_vol_C, by decide,
    by decide, by decide, by decide⟩

/-- C19 (as amended): for every volume with cluster_bytes > 0 (and a data area
below 2^31 bytes) and every matched regular file whose chain c0, ..., cn lies
inside the FAT and the data area and reaches an end-of-chain value after n
links, when n × cluster_bytes + tail ≤ size with tail = size mod cluster_bytes
mod 65536, `file_open` returns a stream (no copy leaves a buffer) whose
size-byte buffer was written at offsets [0, n × cluster_bytes + tail) only:
these hold the n full clusters and the tail bytes of cluster cn, and every
byte from that offset on is still what `malloc` left there. -/
theorem file_open_writes_in_bounds (v : volume_t) (name : List Byte) (junk : Nat → Byte)
    (fuel : Nat) (errno : Int) (i : Nat) (cs : List Nat) (cn : Nat)
    (hcb : 0 < v.cluster_bytes)
    (hda : v.data_area.length < 2147483648)
    (hmatch : first_match v name = some i)
    (hreg : is_dir_or_label (sfn_at v.root_directory i) = false)
    (hchain : is_chain v.primary_fat
      (sfn_at v.root_directory i).low_order_address_of_first_cluster cs cn = true)
    (hrange : ∀ x ∈ cs ++ [cn],
      2 ≤ x ∧ (x - 2) * v.cluster_bytes + v.cluster_bytes ≤ v.data_area.length)
    (hroom : cs.length * v.cluster_bytes
      + (sfn_at v.root_directory i).size % v.cluster_bytes % 65536
        ≤ (sfn_at v.root_directory i).size)
    (hfuel : cs.length < fuel) :
    ∃ f, file_open v name junk fuel errno = some (some f, errno)
      ∧ f.data.length = (sfn_at v.root_directory i).size
      ∧ f.data.take (cs.length * v.cluster_bytes
            + (sfn_at v.root_directory i).size % v.cluster_bytes % 65536)
          = (cs.map (cluster v)).flatten
            ++ (cluster v cn).take ((sfn_at v.root_directory i).size % v.cluster_bytes % 65536)
      ∧ f.data.drop (cs.length * v.cluster_bytes
            + (sfn_at v.root_directory i).size % v.cluster_bytes % 65536)
          = (malloc junk (sfn_at v.root_directory i).size).drop (cs.length * v.cluster_bytes
            + (sfn_at v.root_directory i).size % v.cluster_bytes % 65536) := by
  have hrec := reconstruct_general v (sfn_at v.root_directory i) junk fuel cs cn hcb hda hchain
    hrange hroom hfuel
  have hF := clusters_length v cs (fun x hx => (hrange x (by simp [hx])).2)
  have hT : ((cluster v cn).take
      ((sfn_at v.root_directory i).size % v.cluster_bytes % 65536)).length
      = (sfn_at v.root_directory i).size % v.cluster_bytes % 65536 := by
    have h1 := cluster_length v cn (hrange cn (by simp)).2
    have h2 : (sfn_at v.root_directory i).size % v.cluster_bytes < v.cluster_bytes :=
      Nat.mod_lt _ hcb
    have h3 : (sfn_at v.root_directory i).size % v.cluster_bytes % 65536
        ≤ (sfn_at v.root_directory i).size % v.cluster_bytes := Nat.mod_le _ _
    rw [List.length_take, h1]
    omega
  have hFT : ((cs.map (cluster v)).flatten ++ (cluster v cn).take
      ((sfn_at v.root_directory i).size % v.cluster_bytes % 65536)).length
      = cs.length * v.cluster_bytes
        + (sfn_at v.root_directory i).size % v.cluster_bytes % 65536 := by
    rw [List.length_append, hF, hT]
  refine ⟨_, ?_, (reconstruct_shape v _ junk fuel _ hrec).2.2, ?_, ?_⟩
  · rw [file_open_of_match v name junk fuel errno i hmatch hreg, hrec]
    rfl
  · exact List.take_left' hFT
  · exact List.drop_left' hFT

set_option maxRecDepth 100000 in
theorem file_open_writes_in_bounds_witness :
    ∃ f, file_open vol_B [0x42] (fun _ => 0) 2 0 = some (some f, 0)
      ∧ f.data.length = (sfn_at vol_B.root_directory 0).size
      ∧ f.data.take ([2].length * vol_B.cluster_bytes
            + (sfn_at vol_B.root_directory 0).size % vol_B.cluster_bytes % 65536)
          = ([2].map (cluster vol_B)).flatten
            ++ (cluster vol_B 3).take
              ((sfn_at vol_B.root_directory 0).size % vol_B.cluster_bytes % 65536)
      ∧ f.data.drop ([2].length * vol_B.cluster_bytes
            + (sfn_at vol_B.root_directory 0).size % vol_B.cluster_bytes % 65536)
          = (malloc (fun _ => 0) (sfn_at vol_B.root_directory 0).size).drop
            ([2].length * vol_B.cluster_bytes
              + (sfn_at vol_B.root_directory 0).size % vol_B.cluster_bytes % 65536) :=
  file_open_writes_in_bounds vol_B [0x42] (fun _ => 0) 2 0 0 [2] 3 (by decide) (by decide)
    (by decide) (by decide) (by decide) (by decide) (by decide) (by decide)

set_option maxRecDepth 100000 in
/-- C19 fails as stated: on a volume with 512-byte clusters whose file A has
size 3 but the two-cluster chain 2, 3 (end of chain after n = 1 link), the
first pass of the loop copies a full cluster of 512 bytes to offset 0 of the
3-byte buffer: the copy leaves the buffer, and n × cluster_bytes + tail = 515
exceeds size = 3. -/
theorem file_open_overruns_short_buffer :
    vol_A_long.cluster_bytes = 512
    ∧ first_match vol_A_long [0x41] = some 0
    ∧ is_dir_or_label (sfn_at vol_A_long.root_directory 0) = false
    ∧ (sfn_at vol_A_long.root_directory 0).size = 3
    ∧ is_chain vol_A_long.primary_fat
        (sfn_at vol_A_long.root_directory 0).low_order_address_of_first_cluster [2] 3 = true
    ∧ (∀ x ∈ [2, 3], 2 ≤ x ∧ (x - 2) * vol_A_long.cluster_bytes + vol_A_long.cluster_bytes
        ≤ vol_A_long.data_area.length)
    ∧ memcpy (malloc (fun _ => 0) 3) (dst_offset vol_A_long 0) vol_A_long.data_area
        (src_offset vol_A_long 2) vol_A_long.cluster_bytes = none
    ∧ chain_step vol_A_long 2 0 (malloc (fun _ => 0) 3) = none
    ∧ file_open vol_A_long [0x41] (fun _ => 0) 3 0 = none := by
  decide

/-- The streams reachable from a stream share its data buffer and SFN copy. -/
theorem reachable_buffers (s0 s : file_t) (h : Reachable s0 s) :
    s.data = s0.data ∧ s.handle = s0.handle := by
  induction h with
  | init => exact ⟨rfl, rfl⟩
  | read s size nmemb errno r _ hread ih =>
    rcases file_read_stream s size nmemb errno r hread with h1 | ⟨x, _, _, h1⟩
    · rw [h1]
      exact ih
    · rw [h1]
      have hb := file_seek_buffers s x SEEK_CUR errno
      exact ⟨hb.1.trans ih.1, hb.2.trans ih.2⟩
  | seek s offset whence errno _ _ _ ih =>
    have hb := file_seek_buffers s offset whence errno
    exact ⟨hb.1.trans ih.1, hb.2.trans ih.2⟩

/-- Seeking to the start restores a fresh stream when the chain walk fills the
whole buffer: for every matched regular file whose chain stays in range and
has n × cluster_bytes + tail = size (tail = size mod cluster_bytes mod 65536),
two `file_open` calls return the same stream whatever `malloc` left in their
buffers, and on every stream reachable from the first by `file_read` and
`file_seek` calls, `file_seek(stream, 0, SEEK_SET)` returns 0 and leaves the
stream equal to the second. -/
theorem seek_start_restores (v : volume_t) (name : List Byte) (junk1 junk2 : Nat → Byte)
    (fuel : Nat) (e1 e2 : Int) (i : Nat) (cs : List Nat) (cn : Nat)
    (hcb : 0 < v.cluster_bytes)
    (hda : v.data_area.length < 2147483648)
    (hmatch : first_match v name = some i)
    (hreg : is_dir_or_label (sfn_at v.root_directory i) = false)
    (hchain : is_chain v.primary_fat
      (sfn_at v.root_directory i).low_order_address_of_first_cluster cs cn = true)
    (hrange : ∀ x ∈ cs ++ [cn],
      2 ≤ x ∧ (x - 2) * v.cluster_bytes + v.cluster_bytes ≤ v.data_area.length)
    (hfull : cs.length * v.cluster_bytes
      + (sfn_at v.root_directory i).size % v.cluster_bytes % 65536
        = (sfn_at v.root_directory i).size)
    (hfuel : cs.length < fuel) :
    ∃ s1 s2, file_open v name junk1 fuel e1 = some (some s1, e1)
      ∧ file_open v name junk2 fuel e2 = some (some s2, e2)
      ∧ ∀ s, Reachable s1 s → ∀ errno : Int,
          (file_seek s 0 SEEK_SET errno).1 = 0 ∧ (file_seek s 0 SEEK_SET errno).2.1 = s2 := by
  have hrec1 := reconstruct_general v (sfn_at v.root_directory i) junk1 fuel cs cn hcb hda
    hchain hrange (by omega) hfuel
  have hrec2 := reconstruct_general v (sfn_at v.root_directory i) junk2 fuel cs cn hcb hda
    hchain hrange (by omega) hfuel
  rw [List.drop_of_length_le (by rw [malloc_length]; omega), List.append_nil] at hrec1 hrec2
  refine ⟨file_t.mk (sfn_at v.root_directory i) ((cs.map (cluster v)).flatten
      ++ (cluster v cn).take ((sfn_at v.root_directory i).size % v.cluster_bytes % 65536)) 0,
    file_t.mk (sfn_at v.root_directory i) ((cs.map (cluster v)).flatten
      ++ (cluster v cn).take ((sfn_at v.root_directory i).size % v.cluster_bytes % 65536)) 0,
    ?_, ?_, ?_⟩
  · rw [file_open_of_match v name junk1 fuel e1 i hmatch hreg, hrec1]
    rfl
  · rw [file_open_of_match v name junk2 fuel e2 i hmatch hreg, hrec2]
    rfl
  · intro s hs errno
    obtain ⟨hd, hh⟩ := reachable_buffers _ s hs
    simp only at hd hh
    rw [file_seek_SET]
    have h0 : ¬ toU32 0 > ((s.handle.size : Nat) : Int) := by
      unfold toU32
      omega
    rw [if_neg (lt_irrefl 0), if_neg h0, hd, hh]
    exact ⟨rfl, rfl⟩

set_option maxRecDepth 100000 in
/-- C20: on the volume whose file C has size 1024 = 2 × cluster_bytes and the
chain 2, 3, `file_open` leaves bytes 512..1023 of the buffer as `malloc` gave
them (the defect of C11).  With zeros in the first buffer and sevens in the
buffer of a second `file_open` of the same name, `file_seek(stream, 0,
SEEK_SET)` on the first stream returns 0, and `file_read(ptr, 1, 513, ...)`
returns 513 on both streams but the byte copied from offset 512 is 0 on the
first and 7 on the fresh one. -/
theorem seek_start_differs_from_fresh_open :
    ∃ s1 s2, file_open vol_C [0x43] (fun _ => 0) 3 0 = some (some s1, 0)
      ∧ file_open vol_C [0x43] (fun _ => 7) 3 0 = some (some s2, 0)
      ∧ (file_seek s1 0 SEEK_SET 0).1 = 0
      ∧ (file_read (file_seek s1 0 SEEK_SET 0).2.1 1 513 0).map
          (fun r => (r.1, r.2.1.getD 512 0)) = some (513, 0)
      ∧ (file_read s2 1 513 0).map (fun r => (r.1, r.2.1.getD 512 0)) = some (513, 7) :=
  ⟨_, _, file_open_vol_C (fun _ => 0), file_open_vol_C (fun _ => 7), by decide, by decide,
    by decide⟩

/-! ## `disk_read` and `fat_open` -/

theorem rd16_lt (buf : List Byte) (off : Nat) : rd16 buf off < 65536 := by
  unfold rd16 rd8
  have h1 := (buf.getD off 0).isLt
  have h2 := (buf.getD (off + 1) 0).isLt
  omega

theorem fseek_eq (f : FILE) (k : Nat) (errno : Int) :
    fseek f (k : Int) errno = (FILE.mk f.bytes k, errno) := by
  unfold fseek
  rw [if_neg (by omega), Int.toNat_ofNat]

theorem fread_eq (f : FILE) (n : Nat) (hn : n < 2147483648)
    (hin : f.pos + 512 * n ≤ f.bytes.length) :
    fread f 512 n
      = (n, (f.bytes.drop f.pos).take (512 * n), FILE.mk f.bytes (f.pos + 512 * n)) := by
  have hlen : ((f.bytes.drop f.pos).take (512 * n)).length = 512 * n := by
    rw [List.length_take, List.length_drop]
    omega
  unfold fread
  rw [if_neg (by omega)]
  simp only [hlen, Nat.mul_div_cancel_left n (by decide : 0 < 512)]

/-- A read that stays inside the image: `disk_read` returns the sector count
and stores the bytes of the sectors asked for. -/
theorem disk_read_eq (pdisk : disk_t) (fs n : Nat) (errno : Int) (hfs : fs < 4194304)
    (hn : n < 2147483648) (hin : 512 * (fs + n) ≤ pdisk.disk.bytes.length) :
    disk_read pdisk (fs : Int) (n : Int) errno
      = ((n : Int), (pdisk.disk.bytes.drop (512 * fs)).take (512 * n),
          disk_t.mk (FILE.mk pdisk.disk.bytes (512 * fs + 512 * n)), errno) := by
  have ho : toI32 (((SECTOR_SIZE : Nat) : Int) * (fs : Int)) = ((512 * fs : Nat) : Int) := by
    unfold toI32 SECTOR_SIZE
    omega
  have hc : (toU64 (n : Int)).toNat = n := by
    unfold toU64
    omega
  have hr : toI32 ((n : Nat) : Int) = (n : Int) := by
    unfold toI32
    omega
  unfold disk_read
  rw [ho, fseek_eq, hc]
  simp only
  rw [show SECTOR_SIZE = 512 from rfl, fread_eq _ n hn (by simp only; omega)]
  simp only [hr]
  rw [if_neg (by simp)]

theorem fill_exact (junk : Nat → Byte) (n : Nat) (stored : List Byte) (h : stored.length = n) :
    fill junk n stored = some stored := by
  unfold fill
  rw [if_pos (by omega), List.drop_of_length_le (by rw [malloc_length]; omega), List.append_nil]
/-- The end of `fat_open` on an image with 512-byte sectors that holds the
sectors up to `small_number_of_sectors`. -/
theorem fat_open_data_ok (b : boot_sector_t) (P S R : List Byte) (pdisk : disk_t) (das : Nat)
    (junk : Nat → Byte) (errno : Int) (small : Nat)
    (hbps : b.bytes_per_sector = 512) (hsmall : b.small_number_of_sectors = small)
    (hd : das < 4194304) (h3 : das ≤ small) (h4 : 512 * small ≤ pdisk.disk.bytes.length) :
    fat_open_data b P S R pdisk das junk errno
      = some (some (volume_t.mk b P S R
          ((pdisk.disk.bytes.drop (512 * das)).take (512 * (small - das)))), errno) := by
  have bsmall : small < 65536 := by rw [← hsmall]; exact rd16_lt _ _
  have hr := disk_read_eq pdisk das (small - das) errno hd (by omega) (by omega)
  have hdsI : ((small : Nat) : Int) - ((das : Nat) : Int) = ((small - das : Nat) : Int) := by
    omega
  have hdz : toI32 (((small - das : Nat) : Int) * ((512 : Nat) : Int))
      = ((512 * (small - das) : Nat) : Int) := by
    unfold toI32
    omega
  have hl : ((pdisk.disk.bytes.drop (512 * das)).take (512 * (small - das))).length
      = 512 * (small - das) := by
    rw [List.length_take, List.length_drop]
    omega
  unfold fat_open_data
  rw [hbps, hsmall, hdsI, hdz, if_neg (by omega), hr]
  unfold fat_open_data_read
  dsimp only
  rw [Int.toNat_ofNat, fill_exact _ _ _ hl]
  dsimp only
  rw [if_neg (by omega)]

/-- The part of `fat_open` after the FAT comparison, on an image with 512-byte
sectors that holds the sectors up to `small_number_of_sectors`. -/
theorem fat_open_root_ok (b : boot_sector_t) (P S : List Byte) (pdisk : disk_t) (f2 : Nat)
    (junk : Nat → Nat → Byte) (errno : Int) (spf cap small : Nat)
    (hbps : b.bytes_per_sector = 512) (hspf : b.sectors_per_fat = spf)
    (hcap : b.root_dir_capacity = cap) (hsmall : b.small_number_of_sectors = small)
    (hf2 : f2 < 256) (h3 : f2 + spf + cap * 32 / 512 ≤ small)
    (h4 : 512 * small ≤ pdisk.disk.bytes.length) :
    fat_open_root b P S pdisk f2 junk errno
      = some (some (volume_t.mk b P S
          ((pdisk.disk.bytes.drop (512 * (f2 + spf))).take (512 * (cap * 32 / 512))
            ++ (malloc (junk 2) (cap * 32)).drop (512 * (cap * 32 / 512)))
          ((pdisk.disk.bytes.drop (512 * (f2 + spf + cap * 32 / 512))).take
            (512 * (small - (f2 + spf + cap * 32 / 512))))), errno) := by
  have bspf : spf < 65536 := by rw [← hspf]; exact rd16_lt _ _
  have bcap : cap < 65536 := by rw [← hcap]; exact rd16_lt _ _
  have bsmall : small < 65536 := by rw [← hsmall]; exact rd16_lt _ _
  have hrz : cap * 32 / 512 * 512 ≤ cap * 32 := Nat.div_mul_le_self _ _
  have hr := disk_read_eq pdisk (f2 + spf) (cap * 32 / 512) errno (by omega) (by omega)
    (by omega)
  have hl : ((pdisk.disk.bytes.drop (512 * (f2 + spf))).take (512 * (cap * 32 / 512))).length
      = 512 * (cap * 32 / 512) := by
    rw [List.length_take, List.length_drop]
    omega
  have hfill : fill (junk 2) (cap * 32)
      ((pdisk.disk.bytes.drop (512 * (f2 + spf))).take (512 * (cap * 32 / 512)))
      = some ((pdisk.disk.bytes.drop (512 * (f2 + spf))).take (512 * (cap * 32 / 512))
          ++ (malloc (junk 2) (cap * 32)).drop (512 * (cap * 32 / 512))) := by
    unfold fill
    rw [hl, if_pos (by omega)]
  unfold fat_open_root
  rw [hbps, hspf, hcap, if_neg (by decide), show ENTRY_SIZE = 32 from rfl, hr]
  unfold fat_open_root_read
  dsimp only
  rw [hfill]
  dsimp only
  rw [if_neg (by omega)]
  exact fat_open_data_ok b P S _ _ _ (junk 3) errno small hbps hsmall (by omega) h3 h4

/-- The part of `fat_open` after the second FAT read, on an image with
512-byte sectors that holds every sector read, when that read returned the
bytes of the first FAT buffer. -/
theorem fat_open_secondary_ok (b : boot_sector_t) (P : List Byte) (pdisk : disk_t) (f2 : Nat)
    (junk : Nat → Nat → Byte) (errno : Int) (spf cap small : Nat)
    (hbps : b.bytes_per_sector = 512) (hspf : b.sectors_per_fat = spf)
    (hcap : b.root_dir_capacity = cap) (hsmall : b.small_number_of_sectors = small)
    (hf2 : f2 < 256) (hl : P.length = 512 * spf)
    (h3 : f2 + spf + cap * 32 / 512 ≤ small)
    (h4 : 512 * small ≤ pdisk.disk.bytes.length) :
    fat_open_secondary b ((512 * spf : Nat) : Int) P f2 junk ((spf : Int), P, pdisk, errno)
      = some (some (volume_t.mk b P P
          ((pdisk.disk.bytes.drop (512 * (f2 + spf))).take (512 * (cap * 32 / 512))
            ++ (malloc (junk 2) (cap * 32)).drop (512 * (cap * 32 / 512)))
          ((pdisk.disk.bytes.drop (512 * (f2 + spf + cap * 32 / 512))).take
              (512 * (small - (f2 + spf + cap * 32 / 512))))), errno) := by
  unfold fat_open_secondary
  dsimp only
  rw [Int.toNat_ofNat, fill_exact _ _ _ hl]
  dsimp only
  rw [if_neg (by omega), if_neg (not_not.mpr rfl)]
  exact fat_open_root_ok b _ _ _ _ junk errno spf cap small hbps hspf hcap hsmall hf2 h3 h4

/-- The part of `fat_open` after the signature check, on an image with
512-byte sectors that holds every sector read and whose two FAT reads return
the same bytes. -/
theorem fat_open_fats_ok (b : boot_sector_t) (pdisk : disk_t) (junk : Nat → Nat → Byte)
    (errno : Int) (spf res cap small : Nat)
    (hbps : b.bytes_per_sector = 512) (hspf : b.sectors_per_fat = spf)
    (hres : b.reserved_sectors = res)
    (hcap : b.root_dir_capacity = cap) (hsmall : b.small_number_of_sectors = small)
    (h1 : 512 * (res % 256 + spf) ≤ pdisk.disk.bytes.length)
    (h2 : 512 * ((res % 256 + spf) % 256 + spf) ≤ pdisk.disk.bytes.length)
    (heq : (pdisk.disk.bytes.drop (512 * (res % 256))).take (512 * spf)
      = (pdisk.disk.bytes.drop (512 * ((res % 256 + spf) % 256))).take (512 * spf))
    (h3 : (res % 256 + spf) % 256 + spf + cap * 32 / 512 ≤ small)
    (h4 : 512 * small ≤ pdisk.disk.bytes.length) :
    fat_open_fats b pdisk junk errno
      = some (some (volume_t.mk b
          ((pdisk.disk.bytes.drop (512 * (res % 256))).take (512 * spf))
          ((pdisk.disk.bytes.drop (512 * ((res % 256 + spf) % 256))).take (512 * spf))
          ((pdisk.disk.bytes.drop (512 * ((res % 256 + spf) % 256 + spf))).take
              (512 * (cap * 32 / 512))
            ++ (malloc (junk 2) (cap * 32)).drop (512 * (cap * 32 / 512)))
          ((pdisk.disk.bytes.drop (512 * ((res % 256 + spf) % 256 + spf + cap * 32 / 512))).take
              (512 * (small - ((res % 256 + spf) % 256 + spf + cap * 32 / 512))))), errno) := by
  have bspf : spf < 65536 := by rw [← hspf]; exact rd16_lt _ _
  have hf1 : res % 256 < 256 := Nat.mod_lt _ (by decide)
  have hf2 : (res % 256 + spf) % 256 < 256 := Nat.mod_lt _ (by decide)
  have hr1 := disk_read_eq pdisk (res % 256) spf errno (by omega) (by omega) h1
  have hr2 := disk_read_eq (disk_t.mk (FILE.mk pdisk.disk.bytes (512 * (res % 256) + 512 * spf)))
    ((res % 256 + spf) % 256) spf errno (by omega) (by omega) h2
  have hsz : toI32 ((spf : Int) * ((512 : Nat) : Int)) = ((512 * spf : Nat) : Int) := by
    unfold toI32
    omega
  have hl : ((pdisk.disk.bytes.drop (512 * (res % 256))).take (512 * spf)).length
      = 512 * spf := by
    rw [List.length_take, List.length_drop]
    omega
  unfold fat_open_fats
  rw [hbps, hspf, hres, hsz, if_neg (by omega), hr1]
  unfold fat_open_primary
  dsimp only
  rw [Int.toNat_ofNat, fill_exact _ _ _ hl]
  dsimp only
  rw [if_neg (by omega), hspf, hr2]
  dsimp only
  rw [← heq]
  exact fat_open_secondary_ok b _ _ _ junk errno spf cap small hbps hspf hcap hsmall hf2 hl h3 h4

/-- The volume `fat_open` builds from an image with 512-byte sectors when
every read stays inside the image: the FAT buffers hold the `sectors_per_fat`
sectors from sector `reserved_sectors mod 256` and from sector
`(reserved_sectors mod 256 + sectors_per_fat) mod 256` (the sector number is
kept in a `uint8_t`), which must be equal; the root directory and the data
area follow the second of these. -/
theorem fat_open_ok (pdisk : disk_t) (fs : Nat) (junk : Nat → Nat → Byte) (errno : Int)
    (B : List Byte) (spf res cap small : Nat)
    (hfs : fs < 4194304) (h0 : 512 * (fs + 1) ≤ pdisk.disk.bytes.length)
    (hB : (pdisk.disk.bytes.drop (512 * fs)).take (512 * 1) = B)
    (hsig : (boot_sector_t.mk B).signature = SIGNATURE)
    (hbps : (boot_sector_t.mk B).bytes_per_sector = 512)
    (hspf : (boot_sector_t.mk B).sectors_per_fat = spf)
    (hres : (boot_sector_t.mk B).reserved_sectors = res)
    (hcap : (boot_sector_t.mk B).root_dir_capacity = cap)
    (hsmall : (boot_sector_t.mk B).small_number_of_sectors = small)
    (h1 : 512 * (res % 256 + spf) ≤ pdisk.disk.bytes.length)
    (h2 : 512 * ((res % 256 + spf) % 256 + spf) ≤ pdisk.disk.bytes.length)
    (heq : (pdisk.disk.bytes.drop (512 * (res % 256))).take (512 * spf)
      = (pdisk.disk.bytes.drop (512 * ((res % 256 + spf) % 256))).take (512 * spf))
    (h3 : (res % 256 + spf) % 256 + spf + cap * 32 / 512 ≤ small)
    (h4 : 512 * small ≤ pdisk.disk.bytes.length) :
    fat_open pdisk fs junk errno
      = some (some (volume_t.mk (boot_sector_t.mk B)
          ((pdisk.disk.bytes.drop (512 * (res % 256))).take (512 * spf))
          ((pdisk.disk.bytes.drop (512 * ((res % 256 + spf) % 256))).take (512 * spf))
          ((pdisk.disk.bytes.drop (512 * ((res % 256 + spf) % 256 + spf))).take
              (512 * (cap * 32 / 512))
            ++ (malloc (junk 2) (cap * 32)).drop (512 * (cap * 32 / 512)))
          ((pdisk.disk.bytes.drop (512 * ((res % 256 + spf) % 256 + spf + cap * 32 / 512))).take
              (512 * (small - ((res % 256 + spf) % 256 + spf + cap * 32 / 512))))), errno) := by
  have hfsI : toI32 ((fs : Nat) : Int) = (fs : Int) := by
    unfold toI32
    omega
  have hr0 := disk_read_eq pdisk fs 1 errno hfs (by decide) h0
  rw [hB, Nat.cast_one] at hr0
  unfold fat_open
  rw [hfsI, hr0]
  unfold fat_open_boot
  dsimp only
  rw [if_neg (by decide), if_neg (not_not.mpr hsig)]
  exact fat_open_fats_ok (boot_sector_t.mk B) _ junk errno spf res cap small hbps hspf hres hcap
    hsmall h1 h2 heq h3 h4

set_option maxRecDepth 100000 in
/-- C15: on an image of four sectors whose boot sector announces five (1
reserved sector, 1 sector per FAT, 16 root slots), the reads of the boot
sector, the two FATs and the root directory succeed and the read of the one
data sector returns 0 sectors where 1 was asked for: `disk_read` returns -1
with ERANGE, yet `fat_open` returns null with `errno` set to ENOMEM.  When the
same image is cut after the first FAT, the read of the second FAT is the short
one and `fat_open` returns null with ERANGE. -/
theorem fat_open_short_data_read :
    (disk_read (disk_t.mk (FILE.mk image_short 0)) 3 1 0).1 = 1
    ∧ (disk_read (disk_t.mk (FILE.mk image_short 2048)) 4 1 0).1 = -1
    ∧ (disk_read (disk_t.mk (FILE.mk image_short 2048)) 4 1 0).2.2.2 = ERANGE
    ∧ fat_open (disk_t.mk (FILE.mk image_short 0)) 0 (fun _ _ => 0) 0 = some (none, ENOMEM)
    ∧ fat_open (disk_t.mk (FILE.mk (image_short.take 1024) 0)) 0 (fun _ _ => 0) 0
        = some (none, ERANGE) := by
  decide

/-! ## `fat_open` on an image with 256 sectors per FAT -/

theorem length_fat_rest_wide : fat_rest_wide.length = 131071 := by
  unfold fat_rest_wide
  exact List.length_replicate _ _

theorem length_boot_wide : boot_wide.length = 512 := by
  unfold boot_wide boot_of
  rw [List.length_append, List.length_append, List.length_append, List.length_replicate,
    List.length_replicate]
  rfl

theorem length_fat1_wide : fat1_wide.length = 131072 := by
  unfold fat1_wide
  rw [List.length_cons, length_fat_rest_wide]

theorem length_fat2_wide : fat2_wide.length = 131072 := by
  unfold fat2_wide
  rw [List.length_cons, length_fat_rest_wide]

theorem length_sector_root_E : sector_root_E.length = 512 := by
  unfold sector_root_E
  rw [List.length_append, List.length_replicate]
  rfl

theorem length_data_abc : data_abc.length = 512 := by
  unfold data_abc
  rw [List.length_append, List.length_replicate]
  rfl

theorem length_image_wide : image_wide.length = 263680 := by
  unfold image_wide
  rw [List.length_append, List.length_append, List.length_append, List.length_append,
    length_boot_wide, length_fat1_wide, length_fat2_wide, length_sector_root_E, length_data_abc]

/-- Sector 0 of `image_wide` is its boot sector. -/
theorem image_wide_boot : (image_wide.drop (512 * 0)).take (512 * 1) = boot_wide := by
  unfold image_wide
  exact List.take_left' length_boot_wide

/-- Sectors 1..256 of `image_wide` are the FAT #1 region. -/
theorem image_wide_fat1 : (image_wide.drop (512 * 1)).take (512 * 256) = fat1_wide := by
  unfold image_wide
  rw [List.drop_left' length_boot_wide]
  exact List.take_left' length_fat1_wide

/-- Sectors 257..512 of `image_wide` are the FAT #2 region. -/
theorem image_wide_fat2 : (image_wide.drop (512 * 257)).take (512 * 256) = fat2_wide := by
  unfold image_wide
  rw [← List.append_assoc, List.drop_left' (by
    rw [List.length_append, length_boot_wide, length_fat1_wide])]
  exact List.take_left' length_fat2_wide

/-- Sector 513 of `image_wide` is the root directory. -/
theorem image_wide_root : (image_wide.drop (512 * 513)).take (512 * 1) = sector_root_E := by
  unfold image_wide
  rw [← List.append_assoc, ← List.append_assoc, List.drop_left' (by
    rw [List.length_append, List.length_append, length_boot_wide, length_fat1_wide,
      length_fat2_wide])]
  exact List.take_left' length_sector_root_E

/-- Sector 257 of `image_wide` starts with the first byte of FAT #2. -/
theorem image_wide_sector_257 :
    ((image_wide.drop (512 * 257)).take (512 * 1)).head? = some 0 := by
  unfold image_wide
  rw [← List.append_assoc, List.drop_left' (by
    rw [List.length_append, length_boot_wide, length_fat1_wide])]
  rfl

set_option maxRecDepth 100000 in
/-- The fields of the boot sector of `image_wide`. -/
theorem boot_wide_fields :
    (boot_sector_t.mk boot_wide).signature = SIGNATURE
    ∧ (boot_sector_t.mk boot_wide).bytes_per_sector = 512
    ∧ (boot_sector_t.mk boot_wide).sectors_per_fat = 256
    ∧ (boot_sector_t.mk boot_wide).reserved_sectors = 1
    ∧ (boot_sector_t.mk boot_wide).root_dir_capacity = 16
    ∧ (boot_sector_t.mk boot_wide).small_number_of_sectors = 515 := by
  decide

/-- The volume `fat_open` builds from `image_wide`: with 256 sectors per FAT
the `uint8_t` sector number wraps from 1 + 256 to 1, so the second FAT buffer
is read from sectors 1..256 again, the root directory from sector 257 and the
data area from sector 258. -/
theorem fat_open_image_wide (junk : Nat → Nat → Byte) (errno : Int) :
    fat_open (disk_t.mk (FILE.mk image_wide 0)) 0 junk errno
      = some (some (volume_t.mk (boot_sector_t.mk boot_wide)
          ((image_wide.drop (512 * 1)).take (512 * 256))
          ((image_wide.drop (512 * 1)).take (512 * 256))
          ((image_wide.drop (512 * 257)).take (512 * 1) ++ (malloc (junk 2) 512).drop 512)
          ((image_wide.drop (512 * 258)).take (512 * 257))), errno) := by
  have hlen : (disk_t.mk (FILE.mk image_wide 0)).disk.bytes.length = 263680 := length_image_wide
  exact fat_open_ok (disk_t.mk (FILE.mk image_wide 0)) 0 junk errno boot_wide 256 1 16 515
    (by decide) (by omega) image_wide_boot boot_wide_fields.1 boot_wide_fields.2.1
    boot_wide_fields.2.2.1 boot_wide_fields.2.2.2.1 boot_wide_fields.2.2.2.2.1
    boot_wide_fields.2.2.2.2.2 (by omega) (by omega) rfl (by decide) (by omega)

/-- C12: on the image of 515 sectors whose valid boot sector gives 1 reserved
sector and 256 sectors per FAT, the FAT #1 region (sectors 1..256) and the
FAT #2 region (sectors 257..512) differ in their first byte, yet `fat_open`
succeeds: the sector number of the second FAT is kept in a `uint8_t`, so
1 + 256 wraps to 1 and the second FAT buffer is a second copy of the FAT #1
region, not a copy of the FAT #2 region. -/
theorem fat_open_accepts_unequal_fats :
    (boot_sector_t.mk ((image_wide.drop (512 * 0)).take (512 * 1))).signature = SIGNATURE
    ∧ (boot_sector_t.mk ((image_wide.drop (512 * 0)).take (512 * 1))).reserved_sectors = 1
    ∧ (boot_sector_t.mk ((image_wide.drop (512 * 0)).take (512 * 1))).sectors_per_fat = 256
    ∧ (image_wide.drop (512 * 1)).take (512 * 256)
        ≠ (image_wide.drop (512 * (1 + 256))).take (512 * 256)
    ∧ ∀ (junk : Nat → Nat → Byte) (errno : Int),
        ∃ primary_fat secondary_fat root_directory data_area,
          fat_open (disk_t.mk (FILE.mk image_wide 0)) 0 junk errno
            = some (some (volume_t.mk (boot_sector_t.mk boot_wide) primary_fat secondary_fat
                root_directory data_area), errno)
          ∧ primary_fat = (image_wide.drop (512 * 1)).take (512 * 256)
          ∧ secondary_fat = (image_wide.drop (512 * 1)).take (512 * 256)
          ∧ secondary_fat ≠ (image_wide.drop (512 * (1 + 256))).take (512 * 256) := by
  have hne : (image_wide.drop (512 * 1)).take (512 * 256)
      ≠ (image_wide.drop (512 * (1 + 256))).take (512 * 256) := by
    rw [image_wide_fat1, show 512 * (1 + 256) = 512 * 257 from rfl, image_wide_fat2]
    intro h
    have h2 := congrArg List.head? h
    exact absurd h2 (by decide)
  rw [image_wide_boot]
  refine ⟨boot_wide_fields.1, boot_wide_fields.2.2.2.1, boot_wide_fields.2.2.1, hne, ?_⟩
  intro junk errno
  exact ⟨_, _, _, _, fat_open_image_wide junk errno, rfl, rfl, hne⟩

/-- C14: on the image of 515 sectors with 1 reserved sector, 256 sectors per
FAT, 16 root slots and small_number_of_sectors = 515, root_sector = 1 + 2 × 256
= 513 and data_sector = 514, so the claim gives the root directory buffer
sector 513 and the data area buffer the one sector 514.  `fat_open` succeeds,
but its `uint8_t` sector number wraps (the defect of C12): the root directory
buffer holds sector 257, inside FAT #2, which differs from sector 513, and the
data area buffer holds the 257 sectors from sector 258 on. -/
theorem fat_open_root_inside_fat :
    (boot_sector_t.mk boot_wide).reserved_sectors + 2 * (boot_sector_t.mk boot_wide).sectors_per_fat
        = 513
    ∧ (boot_sector_t.mk boot_wide).root_dir_capacity * 32
        / (boot_sector_t.mk boot_wide).bytes_per_sector = 1
    ∧ (boot_sector_t.mk boot_wide).small_number_of_sectors = 515
    ∧ ∀ (junk : Nat → Nat → Byte) (errno : Int),
        ∃ primary_fat secondary_fat root_directory data_area,
          fat_open (disk_t.mk (FILE.mk image_wide 0)) 0 junk errno
            = some (some (volume_t.mk (boot_sector_t.mk boot_wide) primary_fat secondary_fat
                root_directory data_area), errno)
          ∧ root_directory = (image_wide.drop (512 * 257)).take (512 * 1)
          ∧ root_directory ≠ (image_wide.drop (512 * 513)).take (512 * 1)
          ∧ data_area = (image_wide.drop (512 * 258)).take (512 * 257)
          ∧ data_area.length = 512 * 257
          ∧ ((image_wide.drop (512 * 514)).take (512 * (515 - 514))).length = 512 * 1 := by
  obtain ⟨_, hbps, hspf, hres, hcap, hsmall⟩ := boot_wide_fields
  refine ⟨by rw [hres, hspf], by rw [hcap, hbps], hsmall, ?_⟩
  intro junk errno
  have hroot : (image_wide.drop (512 * 257)).take (512 * 1) ++ (malloc (junk 2) 512).drop 512
      = (image_wide.drop (512 * 257)).take (512 * 1) := by
    have hd : (malloc (junk 2) 512).drop 512 = [] :=
      List.drop_of_length_le (by rw [malloc_length])
    rw [hd, List.append_nil]
  refine ⟨_, _, _, _, fat_open_image_wide junk errno, hroot, ?_, rfl, ?_, ?_⟩
  · rw [hroot, image_wide_root]
    intro h
    have h2 := congrArg List.head? h
    rw [image_wide_sector_257] at h2
    exact absurd h2 (by decide)
  · rw [List.length_take, List.length_drop, length_image_wide]
    decide
  · rw [List.length_take, List.length_drop, length_image_wide]
    decide

/-! ## The chain walk of `file_open`: the cluster indices visited -/

/-- Every cluster of a chain has a FAT entry inside the FAT. -/
theorem is_chain_fat_some (fat : List Byte) (cn : Nat) (cs : List Nat) :
    ∀ c, is_chain fat c cs cn = true → ∀ x ∈ cs ++ [cn], (fat_entry fat x).isSome = true := by
  induction cs with
  | nil =>
    intro c h x hx
    obtain ⟨hc, y, hf, _⟩ := is_chain_nil fat c cn h
    simp only [List.nil_append, List.mem_singleton] at hx
    rw [hx, ← hc, hf]
    rfl
  | cons a as ih =>
    intro c h x hx
    obtain ⟨ha, next, hf, _, hrest⟩ := is_chain_cons fat c a as cn h
    simp only [List.cons_append, List.mem_cons] at hx
    rcases hx with hx | hx
    · rw [hx, ha, hf]
      rfl
    · exact ih next hrest x hx

/-- Along a chain that stays in range, the indices the cluster loop visits are
the clusters of the chain, in order. -/
theorem chain_indices_walk (v : volume_t) (cn : Nat) (hcb : 0 < v.cluster_bytes)
    (hda : v.data_area.length < 2147483648) (cs : List Nat) :
    ∀ (c k fuel : Nat) (data : List Byte),
      is_chain v.primary_fat c cs cn = true →
      (∀ x ∈ cs, 2 ≤ x ∧ (x - 2) * v.cluster_bytes + v.cluster_bytes ≤ v.data_area.length) →
      (k + cs.length) * v.cluster_bytes ≤ data.length →
      (k + cs.length) * v.cluster_bytes < 2147483648 →
      cs.length < fuel →
      chain_indices v fuel c k data = cs ++ [cn] := by
  induction cs with
  | nil =>
    intro c k fuel data hch _ _ _ hfuel
    obtain ⟨hc, x, hf, hx⟩ := is_chain_nil _ _ _ hch
    obtain ⟨f, rfl⟩ : ∃ f, fuel = f + 1 := ⟨fuel - 1, by simp at hfuel; omega⟩
    rw [chain_indices, chain_step_end v c k x data hf hx]
    simp [hc]
  | cons x xs ih =>
    intro c k fuel data hch hr hlen hlt hfuel
    obtain ⟨hx, next, hf, hn, hrest⟩ := is_chain_cons _ _ _ _ _ hch
    obtain ⟨f, rfl⟩ : ∃ f, fuel = f + 1 := ⟨fuel - 1, by simp at hfuel; omega⟩
    subst hx
    obtain ⟨hx2, hxr⟩ := hr x (List.mem_cons_self _ _)
    simp only [List.length_cons] at hlen hlt hfuel
    have e1 : (k + (xs.length + 1)) * v.cluster_bytes
        = k * v.cluster_bytes + v.cluster_bytes + xs.length * v.cluster_bytes := by ring
    have e2 : (k + 1 + xs.length) * v.cluster_bytes
        = k * v.cluster_bytes + v.cluster_bytes + xs.length * v.cluster_bytes := by ring
    have hB : (cluster v x).length = v.cluster_bytes := cluster_length v x hxr
    rw [chain_indices, chain_step_copy v x k next data hf hn hx2 hcb hxr hda (by omega) (by omega)]
    simp only
    rw [ih next (k + 1) f _ hrest (fun y hy => hr y (List.mem_cons_of_mem _ hy))
      (by simp only [List.length_append, List.length_take, List.length_drop, hB]; omega)
      (by omega) (by omega)]
    rfl

/-- C16 (as amended): for every volume with cluster_bytes > 0 (and a data area
below 2^31 bytes, as `fat_open` allocates it) and every name for which
`file_open` matches a regular file whose chain c0, ..., cn from the
first-cluster field lies inside the FAT and the data area, ends at an
end-of-chain entry and fits the size field (n × cluster_bytes + tail ≤ size),
`file_open` returns a stream, the indices its chain walk visits are exactly
c0, ..., cn, and each of them satisfies 2 ≤ index < total_data_clusters + 2
and has its FAT entry inside the FAT. -/
theorem chain_walk_in_bounds (v : volume_t) (name : List Byte) (junk : Nat → Byte)
    (fuel : Nat) (errno : Int) (i : Nat) (cs : List Nat) (cn : Nat)
    (hcb : 0 < v.cluster_bytes)
    (hda : v.data_area.length < 2147483648)
    (hmatch : first_match v name = some i)
    (hreg : is_dir_or_label (sfn_at v.root_directory i) = false)
    (hchain : is_chain v.primary_fat
      (sfn_at v.root_directory i).low_order_address_of_first_cluster cs cn = true)
    (hrange : ∀ x ∈ cs ++ [cn],
      2 ≤ x ∧ (x - 2) * v.cluster_bytes + v.cluster_bytes ≤ v.data_area.length)
    (hroom : cs.length * v.cluster_bytes
      + (sfn_at v.root_directory i).size % v.cluster_bytes % 65536
        ≤ (sfn_at v.root_directory i).size)
    (hfuel : cs.length < fuel) :
    (∃ f, file_open v name junk fuel errno = some (some f, errno))
    ∧ chain_indices v fuel (sfn_at v.root_directory i).low_order_address_of_first_cluster 0
        (malloc junk (sfn_at v.root_directory i).size) = cs ++ [cn]
    ∧ ∀ x ∈ chain_indices v fuel
          (sfn_at v.root_directory i).low_order_address_of_first_cluster 0
          (malloc junk (sfn_at v.root_directory i).size),
        2 ≤ x ∧ x < total_data_clusters v + 2 ∧ (fat_entry v.primary_fat x).isSome = true := by
  have hrec := reconstruct_general v (sfn_at v.root_directory i) junk fuel cs cn hcb hda hchain
    hrange hroom hfuel
  have hfit := distinct_clusters_fit v.cluster_bytes v.data_area.length hcb (cs ++ [cn])
    (is_chain_nodup _ cn cs _ hchain) hrange
  simp only [List.length_append, List.length_singleton] at hfit
  have e1 : (cs.length + 1) * v.cluster_bytes = cs.length * v.cluster_bytes + v.cluster_bytes := by
    ring
  have hwalk := chain_indices_walk v cn hcb hda cs
    (sfn_at v.root_directory i).low_order_address_of_first_cluster 0 fuel
    (malloc junk (sfn_at v.root_directory i).size) hchain (fun x hx => hrange x (by simp [hx]))
    (by rw [malloc_length, Nat.zero_add]; omega) (by rw [Nat.zero_add]; omega) hfuel
  refine ⟨?_, hwalk, ?_⟩
  · rw [file_open_of_match v name junk fuel errno i hmatch hreg, hrec]
    exact ⟨_, rfl⟩
  · intro x hx
    rw [hwalk] at hx
    obtain ⟨h2, hr⟩ := hrange x hx
    refine ⟨h2, ?_, is_chain_fat_some _ cn cs _ hchain x hx⟩
    have h3 : (x - 2 + 1) * v.cluster_bytes ≤ v.data_area.length := by
      rw [Nat.add_mul, Nat.one_mul]
      exact hr
    have h4 : x - 2 + 1 ≤ v.data_area.length / v.cluster_bytes :=
      (Nat.le_div_iff_mul_le hcb).mpr h3
    unfold total_data_clusters
    omega

set_option maxRecDepth 100000 in
theorem chain_walk_in_bounds_witness :
    (∃ f, file_open vol_B [0x42] (fun _ => 0) 2 0 = some (some f, 0))
    ∧ chain_indices vol_B 2 (sfn_at vol_B.root_directory 0).low_order_address_of_first_cluster 0
        (malloc (fun _ => 0) (sfn_at vol_B.root_directory 0).size) = [2] ++ [3]
    ∧ ∀ x ∈ chain_indices vol_B 2
          (sfn_at vol_B.root_directory 0).low_order_address_of_first_cluster 0
          (malloc (fun _ => 0) (sfn_at vol_B.root_directory 0).size),
        2 ≤ x ∧ x < total_data_clusters vol_B + 2
          ∧ (fat_entry vol_B.primary_fat x).isSome = true :=
  chain_walk_in_bounds vol_B [0x42] (fun _ => 0) 2 0 0 [2] 3 (by decide) (by decide)
    (by decide) (by decide) (by decide) (by decide) (by decide) (by decide)

set_option maxRecDepth 100000 in
/-- C16 fails as stated: `fat_open` succeeds on the five-sector image whose
root directory holds the empty regular file E (size 0, first-cluster field 0),
and `file_open` of the name E matches it and returns a stream, yet the chain
walk reads the FAT entry of index 0 (0xFFF8, an end-of-chain value): the one
index visited is 0, below 2. -/
theorem chain_walk_reads_entry_zero :
    fat_open (disk_t.mk (FILE.mk image_E 0)) 0 (fun _ _ => 0) 0
        = some (some (volume_t.mk (boot_sector_t.mk (boot_of 1 0 16 0 5 0 1 0)) sector_fat
            sector_fat sector_root_E data_abc), 0)
    ∧ first_match (volume_t.mk (boot_sector_t.mk (boot_of 1 0 16 0 5 0 1 0)) sector_fat
        sector_fat sector_root_E data_abc) [0x45] = some 0
    ∧ is_dir_or_label (sfn_at sector_root_E 0) = false
    ∧ (sfn_at sector_root_E 0).size = 0
    ∧ (sfn_at sector_root_E 0).low_order_address_of_first_cluster = 0
    ∧ file_open (volume_t.mk (boot_sector_t.mk (boot_of 1 0 16 0 5 0 1 0)) sector_fat
        sector_fat sector_root_E data_abc) [0x45] (fun _ => 0) 2 0
        = some (some (file_t.mk (sfn_at sector_root_E 0) [] 0), 0)
    ∧ fat_entry sector_fat 0 = some 0xFFF8
    ∧ chain_indices (volume_t.mk (boot_sector_t.mk (boot_of 1 0 16 0 5 0 1 0)) sector_fat
        sector_fat sector_root_E data_abc) 2 0 0 (malloc (fun _ => 0) 0) = [0] := by
  decide

/-! ## `fat_open`: the boot signature -/

/-- The signature field equals 0xAA55 exactly when the bytes at offsets 510
and 511 of the boot sector record are 0x55 and 0xAA. -/
theorem signature_iff (stored : List Byte) :
    (boot_sector_t.mk stored).signature = SIGNATURE
      ↔ (stored.getD 510 0 = 0x55 ∧ stored.getD 511 0 = 0xAA) := by
  have hv : (boot_sector_t.mk stored).signature
      = (stored.getD 510 0).val + 256 * (stored.getD 511 0).val := rfl
  have h1 := (stored.getD 510 0).isLt
  have h2 := (stored.getD 511 0).isLt
  rw [hv, show SIGNATURE = 43605 from rfl]
  constructor
  · intro h
    exact ⟨Fin.ext (by show (stored.getD 510 0).val = 85; omega),
      Fin.ext (by show (stored.getD 511 0).val = 170; omega)⟩
  · rintro ⟨h3, h4⟩
    rw [h3, h4]
    rfl

/-- After a successful read of the boot sector, `fat_open` answers EINVAL when
the bytes stored at offsets 510 and 511 are not 0x55, 0xAA. -/
theorem fat_open_boot_bad_signature (junk : Nat → Nat → Byte) (result : Int)
    (stored : List Byte) (pdisk1 : disk_t) (errno1 : Int) (hread : result ≠ -1)
    (hsig : ¬ (stored.getD 510 0 = 0x55 ∧ stored.getD 511 0 = 0xAA)) :
    fat_open_boot junk (result, stored, pdisk1, errno1) = some (none, EINVAL) := by
  unfold fat_open_boot
  dsimp only
  rw [if_neg hread, if_pos (fun h => hsig ((signature_iff stored).mp h))]

/-- C13 (as amended): for every disk, every first sector below 4194304 = 2^22
(so that the byte offset 512 × first_sector fits the `int` product of
`disk_read`) that lies inside the image, and every `errno`, when the bytes at
offsets 510 and 511 of that sector of the image are not 0x55, 0xAA, `fat_open`
returns null with `errno` set to EINVAL.  The boot sector record is that
sector, as `disk_read` stores it; its signature field is the little-endian
16-bit value at offset 510 of the 512-byte record, and it equals 0xAA55
exactly when those two bytes are 0x55, 0xAA. -/
theorem fat_open_bad_signature (pdisk : disk_t) (first_sector : Nat) (junk : Nat → Nat → Byte)
    (errno : Int)
    (hfs : first_sector < 4194304)
    (hin : 512 * (first_sector + 1) ≤ pdisk.disk.bytes.length)
    (hsig : ¬ (((pdisk.disk.bytes.drop (512 * first_sector)).take 512).getD 510 0 = 0x55
      ∧ ((pdisk.disk.bytes.drop (512 * first_sector)).take 512).getD 511 0 = 0xAA)) :
    fat_open pdisk first_sector junk errno = some (none, EINVAL)
    ∧ disk_read pdisk (toI32 first_sector) 1 errno
        = (1, (pdisk.disk.bytes.drop (512 * first_sector)).take 512,
            disk_t.mk (FILE.mk pdisk.disk.bytes (512 * first_sector + 512)), errno)
    ∧ (boot_sector_t.mk ((pdisk.disk.bytes.drop (512 * first_sector)).take 512)).signature
        = (((pdisk.disk.bytes.drop (512 * first_sector)).take 512).getD 510 0).val
          + 256 * (((pdisk.disk.bytes.drop (512 * first_sector)).take 512).getD 511 0).val
    ∧ ((boot_sector_t.mk ((pdisk.disk.bytes.drop (512 * first_sector)).take 512)).signature
          = SIGNATURE
        ↔ (((pdisk.disk.bytes.drop (512 * first_sector)).take 512).getD 510 0 = 0x55
          ∧ ((pdisk.disk.bytes.drop (512 * first_sector)).take 512).getD 511 0 = 0xAA)) := by
  have hfsI : toI32 ((first_sector : Nat) : Int) = (first_sector : Int) := by
    unfold toI32
    omega
  have hr0 := disk_read_eq pdisk first_sector 1 errno hfs (by decide) hin
  rw [Nat.cast_one, Nat.mul_one] at hr0
  refine ⟨?_, ?_, rfl, signature_iff _⟩
  · unfold fat_open
    rw [hfsI, hr0]
    exact fat_open_boot_bad_signature junk 1 _ _ errno (by decide) hsig
  · rw [hfsI, hr0]

theorem length_boot_of (r0 r1 cap0 cap1 small0 small1 spf0 spf1 : Byte) :
    (boot_of r0 r1 cap0 cap1 small0 small1 spf0 spf1).length = 512 := by
  unfold boot_of
  rw [List.length_append, List.length_append, List.length_append, List.length_replicate,
    List.length_replicate]
  rfl

theorem length_sector_fat : sector_fat.length = 512 := by
  unfold sector_fat
  rw [List.length_append, List.length_replicate]
  rfl

theorem length_image_unsigned : image_unsigned.length = 2560 := by
  unfold image_unsigned
  rw [List.length_append, List.length_append, List.length_append, List.length_append,
    List.length_append, List.length_take, length_boot_of, length_sector_fat,
    length_sector_root_E, length_data_abc]
  rfl

set_option maxRecDepth 100000 in
theorem fat_open_bad_signature_witness :
    fat_open (disk_t.mk (FILE.mk image_unsigned 0)) 0 (fun _ _ => 0) 0 = some (none, EINVAL)
    ∧ disk_read (disk_t.mk (FILE.mk image_unsigned 0)) (toI32 (0 : Nat)) 1 0
        = (1, ((disk_t.mk (FILE.mk image_unsigned 0)).disk.bytes.drop (512 * 0)).take 512,
            disk_t.mk (FILE.mk (disk_t.mk (FILE.mk image_unsigned 0)).disk.bytes (512 * 0 + 512)),
            0)
    ∧ (boot_sector_t.mk
        (((disk_t.mk (FILE.mk image_unsigned 0)).disk.bytes.drop (512 * 0)).take 512)).signature
        = ((((disk_t.mk (FILE.mk image_unsigned 0)).disk.bytes.drop (512 * 0)).take 512).getD
              510 0).val
          + 256 * ((((disk_t.mk (FILE.mk image_unsigned 0)).disk.bytes.drop (512 * 0)).take
              512).getD 511 0).val
    ∧ ((boot_sector_t.mk
          (((disk_t.mk (FILE.mk image_unsigned 0)).disk.bytes.drop (512 * 0)).take 512)).signature
          = SIGNATURE
        ↔ ((((disk_t.mk (FILE.mk image_unsigned 0)).disk.bytes.drop (512 * 0)).take 512).getD
              510 0 = 0x55
          ∧ (((disk_t.mk (FILE.mk image_unsigned 0)).disk.bytes.drop (512 * 0)).take 512).getD
              511 0 = 0xAA)) :=
  fat_open_bad_signature (disk_t.mk (FILE.mk image_unsigned 0)) 0 (fun _ _ => 0) 0
    (by decide) (by rw [show (disk_t.mk (FILE.mk image_unsigned 0)).disk.bytes = image_unsigned
      from rfl, length_image_unsigned]; decide) (by decide)

/-! ## `fat_open` with a first sector of 2^22 or more -/

theorem fseek_neg (f : FILE) (offset errno : Int) (h : offset < 0) :
    fseek f offset errno = (f, EINVAL) := by
  unfold fseek
  rw [if_pos h]

/-- A read whose byte offset `512 * first_sector` wraps to a negative `int`:
`fseek` fails, so the sectors are read from the position the stream already
has, and `errno` is left at EINVAL. -/
theorem disk_read_wrapped (pdisk : disk_t) (fs : Int) (n : Nat) (errno : Int)
    (hneg : toI32 (((SECTOR_SIZE : Nat) : Int) * fs) < 0) (hn : n < 2147483648)
    (hin : pdisk.disk.pos + 512 * n ≤ pdisk.disk.bytes.length) :
    disk_read pdisk fs (n : Int) errno
      = ((n : Int), (pdisk.disk.bytes.drop pdisk.disk.pos).take (512 * n),
          disk_t.mk (FILE.mk pdisk.disk.bytes (pdisk.disk.pos + 512 * n)), EINVAL) := by
  have hc : (toU64 (n : Int)).toNat = n := by
    unfold toU64
    omega
  have hr : toI32 ((n : Nat) : Int) = (n : Int) := by
    unfold toI32
    omega
  unfold disk_read
  rw [fseek_neg _ _ _ hneg, hc]
  simp only
  rw [show SECTOR_SIZE = 512 from rfl, fread_eq _ n hn hin]
  simp only [hr]
  rw [if_neg (by simp)]

theorem length_far_pad : far_pad.length = 2147481088 := by
  unfold far_pad
  exact List.length_replicate _ _

theorem length_sector_zero : sector_zero.length = 512 := by
  unfold sector_zero
  exact List.length_replicate _ _

theorem length_image_far : image_far.length = 2147484160 := by
  unfold image_far
  rw [List.length_append, List.length_append, List.length_append, List.length_append,
    List.length_append, List.length_append, length_boot_of, length_sector_fat,
    length_sector_root_E, length_data_abc, length_far_pad, length_sector_zero]

/-- Sector 0 of `image_far` is a boot sector. -/
theorem image_far_boot : (image_far.drop 0).take (512 * 1) = boot_of 1 0 16 0 5 0 1 0 := by
  unfold image_far
  rw [List.drop_zero]
  exact List.take_left' (length_boot_of _ _ _ _ _ _ _ _)

/-- Sector 1 of `image_far` is the first FAT. -/
theorem image_far_fat1 : (image_far.drop (512 * 1)).take (512 * 1) = sector_fat := by
  unfold image_far
  rw [List.drop_left' (length_boot_of _ _ _ _ _ _ _ _)]
  exact List.take_left' length_sector_fat

/-- Sector 2 of `image_far` is the second FAT. -/
theorem image_far_fat2 : (image_far.drop (512 * 2)).take (512 * 1) = sector_fat := by
  unfold image_far
  rw [← List.append_assoc, List.drop_left' (by
    rw [List.length_append, length_boot_of, length_sector_fat])]
  exact List.take_left' length_sector_fat

/-- Sector 4194304 of `image_far`, its last one, is all zero. -/
theorem image_far_last : (image_far.drop (512 * 4194304)).take 512 = sector_zero := by
  unfold image_far
  rw [← List.append_assoc, ← List.append_assoc, ← List.append_assoc, ← List.append_assoc,
    ← List.append_assoc, List.drop_left' (by
      rw [List.length_append, List.length_append, List.length_append, List.length_append,
        List.length_append, length_boot_of, length_sector_fat, length_sector_root_E,
        length_data_abc, length_far_pad])]
  exact List.take_of_length_le (by rw [length_sector_zero])

set_option maxRecDepth 100000 in
/-- The fields of the boot sector of `image_E` and `image_far`. -/
theorem boot_E_fields :
    (boot_sector_t.mk (boot_of 1 0 16 0 5 0 1 0)).signature = SIGNATURE
    ∧ (boot_sector_t.mk (boot_of 1 0 16 0 5 0 1 0)).bytes_per_sector = 512
    ∧ (boot_sector_t.mk (boot_of 1 0 16 0 5 0 1 0)).sectors_per_fat = 1
    ∧ (boot_sector_t.mk (boot_of 1 0 16 0 5 0 1 0)).reserved_sectors = 1
    ∧ (boot_sector_t.mk (boot_of 1 0 16 0 5 0 1 0)).root_dir_capacity = 16
    ∧ (boot_sector_t.mk (boot_of 1 0 16 0 5 0 1 0)).small_number_of_sectors = 5 := by
  decide

/-- The volume `fat_open` builds from `image_far` when asked for first sector
4194304: the byte offset 512 × 4194304 = 2^31 wraps to a negative `int`, the
`fseek` of `disk_read` fails and the boot sector is read from position 0. -/
theorem fat_open_image_far (junk : Nat → Nat → Byte) (errno : Int) :
    fat_open (disk_t.mk (FILE.mk image_far 0)) 4194304 junk errno
      = some (some (volume_t.mk (boot_sector_t.mk (boot_of 1 0 16 0 5 0 1 0))
          ((image_far.drop (512 * (1 % 256))).take (512 * 1))
          ((image_far.drop (512 * ((1 % 256 + 1) % 256))).take (512 * 1))
          ((image_far.drop (512 * ((1 % 256 + 1) % 256 + 1))).take (512 * (16 * 32 / 512))
            ++ (malloc (junk 2) (16 * 32)).drop (512 * (16 * 32 / 512)))
          ((image_far.drop (512 * ((1 % 256 + 1) % 256 + 1 + 16 * 32 / 512))).take
              (512 * (5 - ((1 % 256 + 1) % 256 + 1 + 16 * 32 / 512))))), EINVAL) := by
  have hlen : (disk_t.mk (FILE.mk image_far (0 + 512 * 1))).disk.bytes.length = 2147484160 :=
    length_image_far
  have hr0 := disk_read_wrapped (disk_t.mk (FILE.mk image_far 0)) (toI32 ((4194304 : Nat) : Int))
    1 errno (by decide) (by decide) (by
      show 0 + 512 * 1 ≤ image_far.length
      rw [length_image_far]
      decide)
  rw [Nat.cast_one] at hr0
  dsimp only at hr0
  rw [image_far_boot] at hr0
  unfold fat_open
  rw [hr0]
  unfold fat_open_boot
  dsimp only
  rw [if_neg (by decide), if_neg (not_not.mpr boot_E_fields.1)]
  exact fat_open_fats_ok (boot_sector_t.mk (boot_of 1 0 16 0 5 0 1 0))
    (disk_t.mk (FILE.mk image_far (0 + 512 * 1))) junk EINVAL 1 1 16 5 boot_E_fields.2.1
    boot_E_fields.2.2.1 boot_E_fields.2.2.2.1 boot_E_fields.2.2.2.2.1 boot_E_fields.2.2.2.2.2
    (by omega) (by omega) (image_far_fat1.trans image_far_fat2.symm) (by decide) (by omega)

set_option maxRecDepth 100000 in
/-- C13 fails as stated: in the image of 4194305 sectors whose sector 0 is a
valid boot sector, sector 4194304 lies inside the image and is all zero, so
its bytes at offsets 510 and 511 are not 0x55, 0xAA; yet `fat_open` with first
sector 4194304 returns a volume: `disk_read` computes the byte offset
512 × 4194304 = 2^31 in `int`, it wraps to a negative value, `fseek` fails
(leaving `errno` at EINVAL) and the boot sector is read from sector 0. -/
theorem fat_open_reads_sector_zero :
    512 * (4194304 + 1) ≤ image_far.length
    ∧ ((image_far.drop (512 * 4194304)).take 512).getD 510 0 = 0
    ∧ ((image_far.drop (512 * 4194304)).take 512).getD 511 0 = 0
    ∧ toI32 (((SECTOR_SIZE : Nat) : Int) * toI32 ((4194304 : Nat) : Int)) = -2147483648
    ∧ ∀ (junk : Nat → Nat → Byte) (errno : Int),
        ∃ primary_fat secondary_fat root_directory data_area,
          fat_open (disk_t.mk (FILE.mk image_far 0)) 4194304 junk errno
            = some (some (volume_t.mk (boot_sector_t.mk (boot_of 1 0 16 0 5 0 1 0)) primary_fat
                secondary_fat root_directory data_area), EINVAL) := by
  refine ⟨by rw [length_image_far], ?_, ?_, by decide, ?_⟩
  · rw [image_far_last]
    decide
  · rw [image_far_last]
    decide
  · intro junk errno
    exact ⟨_, _, _, _, fat_open_image_far junk errno⟩

end FAT16
